import Mathlib

/-!
# HandToolTracker — shallow embedding and verification

A shallow embedding of the core logic of the HandToolTracker web application
(`js/config.js`, `js/state.js`, `js/storage.js`, `js/tools.js`, `js/crews.js`,
the drag-and-drop module and the orchestrator in `js/main.js`), together with
theorems settling the specification's claims about it.

Modelling conventions:
* DOM tool elements become `ToolElem` records carrying exactly the attributes
  the code reads and writes (CSS classes `checked-out` / `broken`, inline
  `display:none`, the `data-crew` / `data-checkout-time` attributes, and the
  parent container).  Element identity (JS object identity) is an `elemId`
  field; `data-tool-name` / `data-tool-number` lookups
  (`document.querySelector`) become first-match searches in document order.
* `localStorage` becomes an association list from string keys to payloads; a
  payload is either a well-formed JSON value (`Payload.ok`) or an
  unparseable string (`Payload.bad`, on which `JSON.parse` would throw).
* Presentational attributes with no behavioural readback (`aria-*` labels,
  screen-reader announcements, CSS classes that are never queried) are not
  modelled.
-/

set_option maxRecDepth 16384

namespace HandTool

/-! ## Configuration (`js/config.js`) -/

/-- `CONFIG.CREW_COUNT` -/
def CREW_COUNT : Nat := 8

/-- `CONFIG.VALIDATION.MIN_TOOL_NAME_LENGTH` -/
def MIN_TOOL_NAME_LENGTH : Nat := 1

/-- `CONFIG.VALIDATION.MAX_TOOL_NAME_LENGTH` -/
def MAX_TOOL_NAME_LENGTH : Nat := 100

/-- `CONFIG.VALIDATION.MIN_QUANTITY` -/
def MIN_QUANTITY : Int := 1

/-- `CONFIG.VALIDATION.MAX_QUANTITY` -/
def MAX_QUANTITY : Int := 999

/-- `CONFIG.CATEGORY_CLASSES` -/
def CATEGORY_CLASSES : List (String × String) :=
  [("hammers", "hammer"), ("drivers", "screwdriver"), ("measuring", "measuring"),
   ("cutting", "cutting"), ("pliers", "pliers"), ("batteries", "battery"),
   ("power", "power-tool"), ("safety", "safety"), ("misc", "misc")]

/-- `CONFIG.POOL_IDS` (the broken pool is addressed separately by id). -/
def POOL_IDS : List (String × String) :=
  [("hammers", "hammersPool"), ("drivers", "driversPool"),
   ("measuring", "measuringPool"), ("cutting", "cuttingPool"),
   ("pliers", "pliersPool"), ("batteries", "batteriesPool"),
   ("power", "powerPool"), ("safety", "safetyPool"), ("misc", "miscPool")]

/-- Association-list lookup, mirroring JS object property access. -/
def alistLookup (l : List (String × String)) (k : String) : Option String :=
  (l.find? (fun p => p.1 = k)).map (fun p => p.2)

/-- A Tool Definition: one entry of the inventory
(`{ name, qty, class }` in `config.js` / `tools.js`). -/
structure ToolDef where
  name : String
  qty : Nat
  cls : String
  deriving Repr, DecidableEq

/-- The inventory: categories in insertion order, each with its tool list
(the JSON object `DEFAULT_TOOL_INVENTORY` and the `toolInventory` state). -/
abbrev Inventory := List (String × List ToolDef)

/-- `DEFAULT_TOOL_INVENTORY` from `js/config.js`. -/
def DEFAULT_TOOL_INVENTORY : Inventory :=
  [("hammers",
    [⟨"Claw Hammer", 8, "hammer"⟩, ⟨"Mini Sledge", 4, "hammer"⟩,
     ⟨"Dead Blow", 3, "hammer"⟩, ⟨"Framing Hammer", 6, "hammer"⟩]),
   ("drivers",
    [⟨"Phillips Screwdriver", 10, "screwdriver"⟩,
     ⟨"Flathead Screwdriver", 10, "screwdriver"⟩,
     ⟨"Impact Bit Set", 6, "screwdriver"⟩,
     ⟨"Multi-bit Driver", 6, "screwdriver"⟩]),
   ("measuring",
    [⟨"Level 2ft", 6, "measuring"⟩, ⟨"Level 4ft", 4, "measuring"⟩,
     ⟨"Framing Square", 5, "measuring"⟩, ⟨"Chalk Line", 8, "measuring"⟩,
     ⟨"String Line", 10, "measuring"⟩, ⟨"Tape Measure", 15, "measuring"⟩]),
   ("cutting",
    [⟨"Machete", 4, "cutting"⟩, ⟨"Utility Knife", 12, "cutting"⟩,
     ⟨"Hacksaw", 4, "cutting"⟩, ⟨"Tin Snips", 6, "cutting"⟩]),
   ("pliers",
    [⟨"Pliers", 10, "pliers"⟩, ⟨"Needle Nose Pliers", 8, "pliers"⟩,
     ⟨"Wire Strippers", 6, "pliers"⟩, ⟨"Wrench Set", 5, "fastening"⟩,
     ⟨"Adjustable Wrench", 6, "fastening"⟩]),
   ("batteries",
    [⟨"DeWalt 20V Battery", 12, "battery"⟩,
     ⟨"Milwaukee M18 Battery", 8, "battery"⟩,
     ⟨"Battery Charger", 4, "battery"⟩]),
   ("power",
    [⟨"Paint Gun", 2, "power-tool"⟩, ⟨"Impact Driver", 6, "power-tool"⟩,
     ⟨"Drill", 8, "power-tool"⟩, ⟨"Circular Saw", 4, "power-tool"⟩]),
   ("safety",
    [⟨"Safety Glasses", 20, "safety"⟩, ⟨"Work Gloves", 30, "safety"⟩,
     ⟨"Ear Protection", 15, "safety"⟩]),
   ("misc",
    [⟨"Tool Belt", 10, "misc"⟩, ⟨"Extension Cord", 6, "misc"⟩,
     ⟨"Work Light", 5, "misc"⟩])]

/-! ## The rendered view (tool elements, stacks, checkout rows)

`tools.js` and `crews.js` keep the live data in the DOM itself; the records
below carry exactly the attributes those modules read back. -/

/-- The parent container of a tool element: inside the collapsible stack of
its Tool Definition, directly inside a category pool (`qty === 1` tools and
tools re-parented by a pool drop), or inside the broken pool. -/
inductive Loc where
  | stack (toolName : String)
  | pool (poolId : String)
  | brokenPool
  deriving Repr, DecidableEq

/-- One draggable tool element (`createToolElement` in `js/tools.js`):
`elemId` models JS object identity, the Booleans model the `checked-out` /
`broken` classes and `style.display = "none"`, and the two options model
`dataset.crew` / `dataset.checkoutTime` (absent until a checkout). -/
structure ToolElem where
  elemId : Nat
  toolName : String
  toolNumber : Nat
  checkedOut : Bool := false
  broken : Bool := false
  displayNone : Bool := false
  crewData : Option Nat := none
  checkoutTimeData : Option String := none
  loc : Loc
  deriving Repr, DecidableEq

/-- The stack element for a multi-quantity tool (`createToolStack`): the
count badge text and whether `style.display = "none"` hides the stack. -/
structure StackElem where
  toolName : String
  qty : Nat
  badge : Nat
  hidden : Bool := false
  deriving Repr, DecidableEq

/-- One checkout row in a crew drop zone (`createCheckoutItem` in
`js/crews.js`). -/
structure CheckoutItem where
  originalTool : String
  toolNumber : Nat
  checkoutTime : String
  crew : Nat
  deriving Repr, DecidableEq

/-- The rendered application view: all draggable tool elements in document
order, all stack elements, and the checkout rows of the crew drop zones. -/
structure Dom where
  tools : List ToolElem
  stackEls : List StackElem
  zones : List CheckoutItem
  deriving Repr, DecidableEq

/-- `document.querySelector` over element identity (the JS code holds the
element reference itself; lookups by reference always hit that element). -/
def findById (d : Dom) (i : Nat) : Option ToolElem :=
  d.tools.find? (fun e => e.elemId = i)

/-- `document.querySelector('.draggable[data-tool-name="n"][data-tool-number="k"]')`:
first matching element in document order. -/
def queryTool (d : Dom) (n : String) (k : Nat) : Option ToolElem :=
  d.tools.find? (fun e => e.toolName = n ∧ e.toolNumber = k)

/-- Mutate the element with identity `i` in place. -/
def modifyElem (d : Dom) (i : Nat) (f : ToolElem → ToolElem) : Dom :=
  { d with tools := d.tools.map (fun e => if e.elemId = i then f e else e) }

/-- The element mutation of a checkout (`checkoutTool` and the restore loop
of `loadCheckouts`): add `checked-out`, hide, stamp both datasets. -/
def checkoutMut (crew : Nat) (time : String) (e : ToolElem) : ToolElem :=
  { e with checkedOut := true, displayNone := true,
           checkoutTimeData := some time, crewData := some crew }

/-- The element mutation of `returnTool`: remove `checked-out`, restore the
display, delete both datasets. -/
def returnMut (e : ToolElem) : ToolElem :=
  { e with checkedOut := false, displayNone := false,
           checkoutTimeData := none, crewData := none }

/-- The element mutation of `markToolBroken` and `loadBrokenTools`: add the
`broken` class and re-parent into the broken pool. -/
def breakMut (e : ToolElem) : ToolElem :=
  { e with broken := true, loc := Loc.brokenPool }

/-- `stackDiv.querySelectorAll('.tool-item:not(.checked-out)').length`:
the available instances still inside the stack of `toolName`. -/
def availCount (d : Dom) (toolName : String) : Nat :=
  (d.tools.filter (fun e => e.loc = Loc.stack toolName ∧ e.checkedOut = false)).length

/-- `updateStackCount` from `js/tools.js` (lines 148-163): recompute the
available count, write it to the badge, and hide the stack exactly when the
count is zero. -/
def updateStackCount (d : Dom) (toolName : String) : Dom :=
  let n := availCount d toolName
  { d with
    stackEls := d.stackEls.map (fun s =>
      if s.toolName = toolName then { s with badge := n, hidden := n = 0 } else s) }

/-! ## Checkout, return, broken-pool operations
(`js/crews.js`, `js/tools.js`) -/

/-- `checkoutTool(toolElement, dropZone)` from `js/crews.js` (lines 171-202):
given the dragged element (by identity) and the crew of the drop zone, build
a checkout row, mark the element `checked-out`, hide it, stamp
`dataset.checkoutTime` / `dataset.crew`, and append the row to the zone.
The current wall-clock time string is a parameter. -/
def checkoutTool (d : Dom) (i : Nat) (crew : Nat) (time : String) : Bool × Dom :=
  match findById d i with
  | none => (false, d)
  | some e =>
    let item : CheckoutItem :=
      { originalTool := e.toolName, toolNumber := e.toolNumber,
        checkoutTime := time, crew := crew }
    let d := modifyElem d i (checkoutMut crew time)
    (true, { d with zones := d.zones ++ [item] })

/-- The recurring `const stack = el.closest('.tool-stack'); if (stack)
updateStackCount(stack);` pattern: refresh the badge of the stack the
element (whose parent is `l`) sits in, if any. -/
def refreshStackFor (d : Dom) (l : Loc) : Dom :=
  match l with
  | Loc.stack s => updateStackCount d s
  | _ => d

/-- `returnTool(toolElement)` from `js/tools.js` (lines 267-296): re-query
the original element by `data-tool-name` / `data-tool-number`, drop the
`checked-out` class, restore the display, delete the checkout datasets, and
refresh the owning stack badge when the element sits in a stack.  The
checkout row is not removed here (that is `handleReturnTool`). -/
def returnTool (d : Dom) (n : String) (k : Nat) : Bool × Dom :=
  match queryTool d n k with
  | none => (false, d)
  | some e =>
    let d := modifyElem d e.elemId returnMut
    (true, refreshStackFor d e.loc)

/-- `handleReturnTool` from `js/crews.js` (lines 151-166): return the
original element and, on success, remove the clicked checkout row (the first
row matching the tool name and number stands in for the clicked one). -/
def handleReturnTool (d : Dom) (n : String) (k : Nat) : Dom :=
  let (ok, d1) := returnTool d n k
  if ok then
    { d1 with zones :=
        d1.zones.eraseP (fun it => it.originalTool = n ∧ it.toolNumber = k) }
  else d1

/-- `markToolBroken(toolElement)` from `js/crews.js` (lines 207-225): add the
`broken` class and re-parent the element into the broken pool.  The
`checked-out` class, checkout datasets and display state are not touched. -/
def markToolBroken (d : Dom) (i : Nat) : Bool × Dom :=
  match findById d i with
  | none => (false, d)
  | some _ =>
    (true, modifyElem d i breakMut)

/-- `unmarkToolBroken(toolElement)` from `js/crews.js` (lines 230-243):
remove the `broken` class only; the caller re-parents the element. -/
def unmarkToolBroken (d : Dom) (i : Nat) : Bool × Dom :=
  match findById d i with
  | none => (false, d)
  | some _ =>
    (true, modifyElem d i (fun e => { e with broken := false }))

/-- The drop target as resolved by `handleDrop` in the drag module: the three
`if` branches test `dropZone.dataset.crew`, then `dropZone.id === 'brokenPool'`,
then `classList.contains('resource-items')`; anything else is a no-op. -/
inductive DropTarget where
  | crewZone (crew : Nat)
  | brokenZone
  | resourcePool (poolId : String)
  | otherZone
  deriving Repr, DecidableEq

/-- `handleDrop(draggedElement, dropZone)` from the drag module (lines
254-298).  On a crew zone: `checkoutTool`, then refresh the stack badge (the
element's parent is unchanged by `checkoutTool`, so its stack is its
pre-drop stack).  On the broken pool: `markToolBroken`.  On a resource pool:
clear the `broken` class if set, re-parent into that pool (after which
`closest('.tool-stack')` is null, so no badge refresh happens). -/
def handleDrop (d : Dom) (i : Nat) (target : DropTarget) (time : String) : Dom :=
  match findById d i with
  | none => d
  | some e =>
    match target with
    | DropTarget.crewZone c =>
      let r := checkoutTool d i c time
      if r.1 then refreshStackFor r.2 e.loc else r.2
    | DropTarget.brokenZone => (markToolBroken d i).2
    | DropTarget.resourcePool pid =>
      let d1 := if e.broken then (unmarkToolBroken d i).2 else d
      modifyElem d1 i (fun e => { e with loc := Loc.pool pid })
    | DropTarget.otherZone => d

/-- One full pointer/touch drag of element `i` onto `target`:
`handleDragStart` rejects stack labels and elements with the `checked-out`
class (`e.preventDefault()`), so a drop only happens for a non-checked-out
tool element; the drop itself is `handleDrop`. -/
def dragDropOp (d : Dom) (i : Nat) (target : DropTarget) (time : String) : Dom :=
  match findById d i with
  | none => d
  | some e => if e.checkedOut then d else handleDrop d i target time

/-- `returnAllTools` from `js/tools.js` (lines 301-319): snapshot all
`.draggable.checked-out` elements, `returnTool` each, count the successes,
then clear every crew drop zone.  Returns the count. -/
def returnAllTools (d : Dom) : Nat × Dom :=
  let ids := (d.tools.filter (fun e => e.checkedOut)).map
    (fun e => (e.toolName, e.toolNumber))
  let res := ids.foldl
    (fun (p : Nat × Dom) id =>
      (p.1 + (if (returnTool p.2 id.1 id.2).1 then 1 else 0),
       (returnTool p.2 id.1 id.2).2))
    (0, d)
  (res.1, { res.2 with zones := [] })

/-! ## Rendering (`initializeInventory` / `createToolStack` in `js/tools.js`) -/

/-- `createToolStack(tool, poolId)`: `qty === 1` renders one element directly
in the pool; otherwise a stack element with badge `qty` plus one `tool-item`
element per instance number `1..qty`.  `base` numbers the fresh elements. -/
def renderTool (t : ToolDef) (poolId : String) (base : Nat) :
    List ToolElem × List StackElem :=
  if t.qty = 1 then
    ([{ elemId := base, toolName := t.name, toolNumber := 1, loc := Loc.pool poolId }],
     [])
  else
    ((List.range t.qty).map (fun j =>
      { elemId := base + j, toolName := t.name, toolNumber := j + 1,
        loc := Loc.stack t.name }),
     [{ toolName := t.name, qty := t.qty, badge := t.qty }])

/-- Render one category's tools into its pool, threading the element-id
counter. -/
def renderCategory (tools : List ToolDef) (poolId : String) (base : Nat) :
    List ToolElem × List StackElem × Nat :=
  tools.foldl
    (fun acc t =>
      (acc.1 ++ (renderTool t poolId acc.2.2).1,
       acc.2.1 ++ (renderTool t poolId acc.2.2).2,
       acc.2.2 + t.qty))
    ([], [], base)

/-- One step of the `initializeInventory` loop over categories: categories
without a configured pool id are skipped with a warning. -/
def renderStep (acc : List ToolElem × List StackElem × Nat)
    (cat : String × List ToolDef) : List ToolElem × List StackElem × Nat :=
  match alistLookup POOL_IDS cat.1 with
  | none => acc
  | some poolId =>
    (acc.1 ++ (renderCategory cat.2 poolId acc.2.2).1,
     acc.2.1 ++ (renderCategory cat.2 poolId acc.2.2).2.1,
     (renderCategory cat.2 poolId acc.2.2).2.2)

/-- `initializeInventory` from `js/tools.js` (lines 168-194), starting the
element-id counter at `base`: clear the category pools (not the broken
pool), then render each category whose id appears in `POOL_IDS`. -/
def renderInventory (inv : Inventory) (base : Nat) : Dom :=
  let res := inv.foldl renderStep ([], [], base)
  { tools := res.1, stackEls := res.2.1, zones := [] }

/-! ## Snapshot loading (`loadCheckouts` in `js/crews.js`,
`loadBrokenTools` / `loadSchedule` in `js/main.js`) -/

/-- One restored checkout record `{ tool, number, time }`. -/
structure LoadTool where
  tool : String
  number : Nat
  time : String
  deriving Repr, DecidableEq

/-- One crew group `{ crew, tools }` of a snapshot's `checkouts` array. -/
structure CrewLoad where
  crew : Nat
  tools : List LoadTool
  deriving Repr, DecidableEq

/-- One entry of a snapshot's `broken` array. -/
structure BrokenLoad where
  name : String
  number : Nat
  deriving Repr, DecidableEq

/-- Restoring one checkout record inside `loadCheckouts`: re-query the
original element, mark it checked out and hidden, stamp the datasets
(`time || ''`), append a row (`time || 'N/A'`), and refresh the stack badge
when the element sits in a stack. -/
def loadOneCheckout (d : Dom) (crew : Nat) (lt : LoadTool) : Dom :=
  match queryTool d lt.tool lt.number with
  | none => d
  | some e =>
    let rowTime := if lt.time = "" then "N/A" else lt.time
    let d := modifyElem d e.elemId (checkoutMut crew lt.time)
    let d := { d with zones := d.zones ++
      [{ originalTool := lt.tool, toolNumber := lt.number,
         checkoutTime := rowTime, crew := crew }] }
    refreshStackFor d e.loc

/-- `loadCheckouts(checkoutsData)` from `js/crews.js` (lines 248-293): crew
groups whose drop zone does not exist (crew id outside `1..CREW_COUNT`) are
skipped; each surviving record is restored in order. -/
def loadCheckouts (data : List CrewLoad) (d : Dom) : Dom :=
  data.foldl
    (fun d g =>
      if 1 ≤ g.crew ∧ g.crew ≤ CREW_COUNT then
        g.tools.foldl (fun d lt => loadOneCheckout d g.crew lt) d
      else d)
    d

/-- `loadBrokenTools(brokenData)` from `js/main.js` (lines 237-253): re-query
each listed element, add the `broken` class and move it into the broken
pool. -/
def loadBrokenTools (data : List BrokenLoad) (d : Dom) : Dom :=
  data.foldl
    (fun d b =>
      match queryTool d b.name b.number with
      | none => d
      | some e => modifyElem d e.elemId breakMut)
    d

/-- The snapshot-load flow of `js/main.js` (`loadSchedule` lines 194-232 /
`loadHistoryData`): re-render the inventory (`initializeInventory` clears
every category pool but NOT the broken pool, so previously broken elements
survive, after the freshly rendered pools in document order),
`createCrewCards` empties the crew zones, then `loadCheckouts` and
`loadBrokenTools` replay the snapshot.  Fresh elements are numbered above
every surviving element id. -/
def loadSnapshotOp (d : Dom) (inv : Inventory) (cks : List CrewLoad)
    (bks : List BrokenLoad) : Dom :=
  let keep := d.tools.filter (fun e => e.loc = Loc.brokenPool)
  let base := (d.tools.map (fun e => e.elemId)).foldl max 0 + 1
  let fresh := renderInventory inv base
  let d1 : Dom := { tools := fresh.tools ++ keep, stackEls := fresh.stackEls,
                    zones := [] }
  loadBrokenTools bks (loadCheckouts cks d1)

/-! ## The operations of claim C1 and reachability -/

/-- The user-level operations named by the mutual-exclusivity claim:
drag-and-drop (which covers checkout, mark-broken and unmark-broken,
depending on the drop target), single return, return-all, and snapshot
load. -/
inductive Op where
  | dragDrop (i : Nat) (target : DropTarget) (time : String)
  | returnOne (n : String) (k : Nat)
  | returnAll
  | load (inv : Inventory) (cks : List CrewLoad) (bks : List BrokenLoad)

/-- Apply one operation to the rendered view. -/
def applyOp (d : Dom) : Op → Dom
  | Op.dragDrop i target time => dragDropOp d i target time
  | Op.returnOne n k => handleReturnTool d n k
  | Op.returnAll => (returnAllTools d).2
  | Op.load inv cks bks => loadSnapshotOp d inv cks bks

/-- The initially rendered application view: the default inventory, element
ids from 0. -/
def initialDom : Dom := renderInventory DEFAULT_TOOL_INVENTORY 0

/-- States reachable from the initial render by the operations of claim C1. -/
inductive Reachable : Dom → Prop where
  | init : Reachable initialDom
  | step {d : Dom} (op : Op) : Reachable d → Reachable (applyOp d op)

/-! ## Tool Instance states -/

/-- The instance is available: not tagged `checked-out` and not parented in
the broken pool. -/
def availableState (e : ToolElem) : Bool :=
  !e.checkedOut && !(e.loc == Loc.brokenPool)

/-- The instance is checked out to some crew (the `checked-out` class, which
is what `updateStackCount` and the drag guard read back). -/
def checkedOutState (e : ToolElem) : Bool := e.checkedOut

/-- The instance sits in the broken pool (what `getBrokenToolsData` reads:
the `.draggable` children of `#brokenPool`). -/
def brokenState (e : ToolElem) : Bool := e.loc == Loc.brokenPool

/-- In how many of the three states the instance simultaneously is. -/
def stateCount (e : ToolElem) : Nat :=
  (if availableState e then 1 else 0) + (if checkedOutState e then 1 else 0) +
    (if brokenState e then 1 else 0)

/-- Claim C1's invariant: every rendered Tool Instance is in exactly one of
the three states. -/
def ExactlyOneState (d : Dom) : Prop := ∀ e ∈ d.tools, stateCount e = 1

/-- The element list never holds a `checked-out` element inside the broken
pool (the inductive core of mutual exclusivity). -/
def NoCheckedBroken (l : List ToolElem) : Prop :=
  ∀ e ∈ l, e.checkedOut = true → e.loc ≠ Loc.brokenPool

/-! ## The safety side-condition forced by the counterexample -/

/-- The restriction under which mutual exclusivity does hold: a crew-zone
drop must not target an element sitting in the broken pool, a broken-pool
drop must not target a `checked-out` element (the drag-start guard enforces
this for the dragged element itself; the condition extends it to every
element sharing its identity, which is the same thing in a real DOM), and a
loaded snapshot must not itself record an instance as simultaneously
checked out and broken. -/
def SafeOp (d : Dom) : Op → Prop
  | Op.dragDrop i (DropTarget.crewZone _) _ =>
      ∀ e ∈ d.tools, e.elemId = i → e.loc ≠ Loc.brokenPool
  | Op.dragDrop i DropTarget.brokenZone _ =>
      ∀ e ∈ d.tools, e.elemId = i → e.checkedOut = false
  | Op.load inv cks bks =>
      NoCheckedBroken (loadSnapshotOp d inv cks bks).tools
  | _ => True

/-- Reachability by the operations of claim C1, restricted to safe
operations. -/
inductive ReachableSafe : Dom → Prop where
  | init : ReachableSafe initialDom
  | step {d : Dom} (op : Op) (hop : SafeOp d op) :
      ReachableSafe d → ReachableSafe (applyOp d op)

/-! ## Claim C1 -/

/-- C1 (as stated) is false: from the initial render, dragging Claw Hammer
number 1 into the broken pool (allowed: it is not checked out) and then
dragging it from the broken pool onto crew 1's drop zone (also allowed:
`handleDragStart` only rejects `checked-out` elements, and `markToolBroken`
does not set that class) produces an instance that is simultaneously in the
broken pool and checked out to crew 1. -/
def c1CexDom : Dom :=
  applyOp (applyOp initialDom (Op.dragDrop 0 DropTarget.brokenZone "07:00"))
    (Op.dragDrop 0 (DropTarget.crewZone 1) "07:05")

/-! ## No residual checkout association (for claims C5 and C2)

In every reachable state, an element without the `checked-out` class
carries no `data-crew` / `data-checkout-time` attribute: `checkoutTool` and
`loadCheckouts` set the class and the datasets together, and `returnTool`
removes them together. -/

/-- An element carries checkout datasets only while tagged `checked-out`. -/
def ResidualFree (e : ToolElem) : Prop :=
  e.checkedOut = false → e.crewData = none ∧ e.checkoutTimeData = none

/-- A two-instance stack rendered from a one-tool inventory, for the C2
witness. -/
def c2Dom : Dom := renderInventory [("hammers", [⟨"Hammer", 2, "hammer"⟩])] 0

/-- Instance number 1 of the C2 witness stack, as rendered. -/
def c2e : ToolElem :=
  { elemId := 0, toolName := "Hammer", toolNumber := 1,
    loc := Loc.stack "Hammer" }

/-! ## Persistent store (`js/storage.js`)

`localStorage` is a string-keyed store.  A stored payload either parses as
JSON (`Payload.ok` of one of the value shapes this application writes) or
makes `JSON.parse` throw (`Payload.bad`: a corrupt or empty payload).
Quota-exceeded write failures are environmental and outside the model; the
availability flag (`checkAvailability`, cached in the constructor) is
modelled, and every operation consults it as the source does. -/

/-- The `scheduleData` object assembled by `saveSchedule` / `saveToHistory`
in `js/main.js` (lines 160-168). -/
structure Snapshot where
  date : String
  lastUpdate : String
  inventory : Inventory
  checkouts : List CrewLoad
  broken : List BrokenLoad
  deriving DecidableEq

/-- A history record: the snapshot spread together with the `savedAt` /
`dateKey` stamps (`saveToHistory`, `js/storage.js` lines 247-251). -/
structure HistoryEntry where
  snap : Snapshot
  savedAt : String
  dateKey : String
  deriving DecidableEq

/-- The JSON value shapes this application stores. -/
inductive SVal where
  | str (s : String)
  | strList (l : List String)
  | sched (s : Snapshot)
  | hist (e : HistoryEntry)
  deriving DecidableEq

/-- A raw stored payload: well-formed JSON or an unparseable string. -/
inductive Payload where
  | ok (v : SVal)
  | bad
  deriving DecidableEq

/-- The durable store: the cached availability probe plus the key/value
pairs. -/
structure Store where
  avail : Bool
  items : List (String × Payload)
  deriving DecidableEq

def lookupStore (st : Store) (key : String) : Option Payload :=
  (st.items.find? (fun p => p.1 = key)).map (fun p => p.2)

/-- `localStorage.setItem`: overwrite the binding of `key`. -/
def storeSet (st : Store) (key : String) (p : Payload) : Store :=
  { st with items := (key, p) :: st.items.filter (fun q => q.1 ≠ key) }

/-- `localStorage.removeItem`: drop the binding of `key`. -/
def storeErase (st : Store) (key : String) : Store :=
  { st with items := st.items.filter (fun q => q.1 ≠ key) }

/-- `Storage.getItem(key, defaultValue)` from `js/storage.js` (lines 38-51):
the default on unavailability, on absence, and on a payload that fails to
parse; the decoded value otherwise.  Total — the `JSON.parse` exception is
caught. -/
def getItem (st : Store) (key : String) (dflt : Option SVal) : Option SVal :=
  if st.avail = false then dflt
  else
    match lookupStore st key with
    | none => dflt
    | some Payload.bad => dflt
    | some (Payload.ok v) => some v

/-- `Storage.setItem(key, value)` from `js/storage.js` (lines 59-78):
returns the success flag. -/
def setItem (st : Store) (key : String) (v : SVal) : Bool × Store :=
  if st.avail = false then (false, st)
  else (true, storeSet st key (Payload.ok v))

/-- `Storage.removeItem(key)` from `js/storage.js` (lines 85-97). -/
def removeItem (st : Store) (key : String) : Bool × Store :=
  if st.avail = false then (false, st)
  else (true, storeErase st key)

/-- `CONFIG.STORAGE_KEYS.SCHEDULE` -/
def SCHEDULE_KEY : String := "toolCheckoutSchedule"

/-- `CONFIG.STORAGE_KEYS.DATE` -/
def DATE_KEY : String := "toolCheckoutDate"

/-- The date-namespaced history key: backtick-template
`toolHistory_<dateKey>` in `saveToHistory` / `loadFromHistory`. -/
def historyKey (k : String) : String := "toolHistory_" ++ k

/-- The history index key `toolHistoryIndex`. -/
def HISTORY_INDEX_KEY : String := "toolHistoryIndex"

/-- `isToday()` (lines 138-141): the stored date marker strictly equals the
current date string (`getCurrentDateString()`, a parameter here). -/
def isToday (st : Store) (today : String) : Bool :=
  getItem st DATE_KEY none == some (SVal.str today)

/-- `saveSchedule(scheduleData)` (lines 148-154): write the snapshot; on
success also write the date marker. -/
def saveSchedule (st : Store) (snap : Snapshot) (today : String) :
    Bool × Store :=
  let r := setItem st SCHEDULE_KEY (SVal.sched snap)
  if r.1 then (r.1, (setItem r.2 DATE_KEY (SVal.str today)).2)
  else (r.1, r.2)

/-- `loadSchedule()` (lines 160-166): nothing unless the marker is today. -/
def loadSchedule (st : Store) (today : String) : Option SVal :=
  if isToday st today = false then none
  else getItem st SCHEDULE_KEY none

/-- The index read `this.getItem('toolHistoryIndex', [])` coerced to a
string list (in states written by this module the key always holds one;
on any other shape the JS code would throw on `index.includes`). -/
def indexList (st : Store) : List String :=
  match getItem st HISTORY_INDEX_KEY (some (SVal.strList [])) with
  | some (SVal.strList l) => l
  | _ => []

/-- `updateHistoryIndex(dateKey)` (lines 290-304): prepend an absent date
(`unshift`), cap at 90 (`splice(90)` keeps the first 90 and returns the
rest), delete the snapshot records of the spliced-off dates, then store the
index.  A date already present leaves everything untouched. -/
def updateHistoryIndex (st : Store) (dateKey : String) : Store :=
  let index := indexList st
  if dateKey ∈ index then st
  else
    let index1 := dateKey :: index
    if 90 < index1.length then
      let kept := index1.take 90
      let removed := index1.drop 90
      let st1 := removed.foldl (fun s k => (removeItem s (historyKey k)).2) st
      (setItem st1 HISTORY_INDEX_KEY (SVal.strList kept)).2
    else
      (setItem st HISTORY_INDEX_KEY (SVal.strList index1)).2

/-- `saveToHistory(scheduleData, dateKey)` (lines 243-261): stamp `savedAt`
and `dateKey` onto the snapshot, store it under the date-namespaced key,
and on success update the index.  The caller resolves the
`dateKey || getDateKey()` default; `new Date().toISOString()` is the
`nowIso` parameter. -/
def saveToHistory (st : Store) (snap : Snapshot) (key nowIso : String) :
    Bool × Store :=
  let he : HistoryEntry := { snap := snap, savedAt := nowIso, dateKey := key }
  let r := setItem st (historyKey key) (SVal.hist he)
  if r.1 then (true, updateHistoryIndex r.2 key) else (false, r.2)

/-- `loadFromHistory(dateKey)` (lines 319-322). -/
def loadFromHistory (st : Store) (dateKey : String) : Option SVal :=
  getItem st (historyKey dateKey) none

/-- An unavailable store holding a binding, for the C7 witness. -/
def c7StoreOff : Store :=
  { avail := false, items := [("k", Payload.ok (SVal.str "v"))] }

/-- An available store with one good and one corrupt binding, for the C7
witness. -/
def c7StoreOn : Store :=
  { avail := true,
    items := [("good", Payload.ok (SVal.str "v")), ("corrupt", Payload.bad)] }

/-- An empty available store. -/
def emptyStore : Store := { avail := true, items := [] }

/-- A nominal snapshot for witnesses. -/
def snap0 : Snapshot :=
  { date := "2024-01-01T12:00:00Z", lastUpdate := "1/1/2024, 12:00:00 PM",
    inventory := [], checkouts := [], broken := [] }

/-- A one-entry history store, for the C10 witness. -/
def c10Store : Store :=
  { avail := true,
    items := [(HISTORY_INDEX_KEY, Payload.ok (SVal.strList ["2024-01-01"])),
              (historyKey "2024-01-01",
                Payload.ok (SVal.hist ⟨snap0, "S", "2024-01-01"⟩))] }

/-- The 89 newer dates of the C3 witness store. -/
def c3Newer : List String := (List.range 89).map (fun n => "d" ++ toString n)

/-- A store whose index holds exactly 90 dates, for the C3 witness. -/
def c3Store : Store :=
  { avail := true,
    items := [(HISTORY_INDEX_KEY,
      Payload.ok (SVal.strList (c3Newer ++ ["old"])))] }

/-! ## Claim C6: tool validation (`validateTool` / `addTool`, `js/tools.js`) -/

/-- JS `String.prototype.trim`: strip leading and trailing whitespace
(modelled over the character list; the ASCII whitespace characters tool
names contain are covered). -/
def jsTrim (s : String) : String :=
  ⟨((s.data.dropWhile Char.isWhitespace).reverse.dropWhile
    Char.isWhitespace).reverse⟩

/-- The `{ valid, errors }` result of `validateTool`. -/
structure ValidationResult where
  valid : Bool
  errors : List String
  deriving DecidableEq, Repr

/-- `validateTool(name, quantity)` from `js/tools.js` (lines 199-223).
`quantity` arrives as the result of `parseInt(quantity, 10)`: `none` models
`NaN`.  The error messages are pushed in source order: name first, then
quantity. -/
def validateTool (name : String) (qty : Option Int) : ValidationResult :=
  let nameErrors : List String :=
    if name = "" ∨ (jsTrim name).length < MIN_TOOL_NAME_LENGTH then
      ["Tool name is required"]
    else if MAX_TOOL_NAME_LENGTH < name.length then
      ["Tool name must be less than " ++ toString MAX_TOOL_NAME_LENGTH ++
        " characters"]
    else []
  let qtyErrors : List String :=
    match qty with
    | none => ["Quantity must be a number"]
    | some q =>
      if q < MIN_QUANTITY then
        ["Quantity must be at least " ++ toString MIN_QUANTITY]
      else if MAX_QUANTITY < q then
        ["Quantity cannot exceed " ++ toString MAX_QUANTITY]
      else []
  let errors := nameErrors ++ qtyErrors
  { valid := errors.isEmpty, errors := errors }

/-- The result object of `addTool`. -/
structure AddResult where
  success : Bool
  errors : List String := []
  tool : Option ToolDef := none
  deriving DecidableEq, Repr

/-- `appState.addTool(category, tool)` from `js/state.js` (lines 70-77):
create the category array when absent, then push. -/
def addToolToInventory (inv : Inventory) (category : String)
    (tool : ToolDef) : Inventory :=
  if inv.any (fun c => c.1 = category) then
    inv.map (fun c => if c.1 = category then (c.1, c.2 ++ [tool]) else c)
  else inv ++ [(category, [tool])]

/-- `addTool(name, category, quantity)` from `js/tools.js` (lines 228-262):
reject with the validation errors (leaving the inventory untouched), or
build the new Tool Definition (trimmed name, category class defaulting to
`misc`) and append it.  The `none` quantity branch is unreachable when the
validation passed. -/
def addTool (name category : String) (qty : Option Int) (inv : Inventory) :
    AddResult × Inventory :=
  let validation := validateTool name qty
  if validation.valid = false then
    ({ success := false, errors := validation.errors }, inv)
  else
    match qty with
    | none => ({ success := false, errors := validation.errors }, inv)
    | some q =>
      let newTool : ToolDef :=
        { name := jsTrim name, qty := q.toNat,
          cls := (alistLookup CATEGORY_CLASSES category).getD "misc" }
      ({ success := true, tool := some newTool },
       addToolToInventory inv category newTool)

/-! ## Claim C8: read accessors and aliasing (`js/state.js`)

Reference semantics are made explicit with a small heap: the state holds
heap addresses of its mutable structures, `deepClone` (a JSON round trip)
allocates a fresh address carrying the same value, and mutating through an
address is a heap write.  `getState` / `getInventory` /
`getExpandedStacks` clone; `getDraggedElement` is
`return this.state.draggedElement;` — the address itself. -/

/-- A heap cell: the inventory structure, the expanded-stacks Set, or a DOM
element's mutable content (a string stands in for it). -/
inductive Cell where
  | inv (v : Inventory)
  | strSet (l : List String)
  | elemCell (s : String)
  deriving DecidableEq

/-- The mutable heap: cell contents by address, and the next fresh
address. -/
structure Heap where
  cells : Nat → Cell
  next : Nat

/-- Mutating the object at address `a`. -/
def heapWrite (h : Heap) (a : Nat) (c : Cell) : Heap :=
  { h with cells := fun b => if b = a then c else h.cells b }

/-- Allocation (what `deepClone` / `new Set` do): a fresh address holding
the given value. -/
def heapAlloc (h : Heap) (c : Cell) : Nat × Heap :=
  (h.next,
   { cells := fun b => if b = h.next then c else h.cells b,
     next := h.next + 1 })

/-- The internal `this.state` of `AppState`: addresses of the two mutable
structures, the dragged-element reference, and the plain time string. -/
structure AppStateRef where
  invAddr : Nat
  stacksAddr : Nat
  draggedAddr : Option Nat
  lastUpdateTime : Option String

/-- `getInventory()` (lines 54-56): `deepClone` the inventory — allocate a
fresh copy and return its address. -/
def getInventoryH (st : AppStateRef) (h : Heap) : Nat × Heap :=
  heapAlloc h (h.cells st.invAddr)

/-- `getExpandedStacks()` (lines 82-84): `new Set(...)` — a fresh copy. -/
def getExpandedStacksH (st : AppStateRef) (h : Heap) : Nat × Heap :=
  heapAlloc h (h.cells st.stacksAddr)

/-- `getDraggedElement()` (lines 127-129): the stored reference itself, no
copy, no allocation. -/
def getDraggedElementH (st : AppStateRef) (_h : Heap) : Option Nat :=
  st.draggedAddr

/-- `getState()` (lines 32-38): spread the state record, deep-cloning the
inventory and copying the Set; the `draggedElement` field is spread as the
same reference. -/
def getStateH (st : AppStateRef) (h : Heap) : AppStateRef × Heap :=
  let a1 := heapAlloc h (h.cells st.invAddr)
  let a2 := heapAlloc a1.2 (h.cells st.stacksAddr)
  ({ invAddr := a1.1, stacksAddr := a2.1, draggedAddr := st.draggedAddr,
     lastUpdateTime := st.lastUpdateTime }, a2.2)

/-- What a later read of the internal inventory observes. -/
def observeInventory (st : AppStateRef) (h : Heap) : Cell :=
  h.cells st.invAddr

/-- What a later read of the internal expanded-stack set observes. -/
def observeStacks (st : AppStateRef) (h : Heap) : Cell :=
  h.cells st.stacksAddr

/-- What a later read of the dragged element observes (the content of the
referenced element, if any). -/
def observeDragged (st : AppStateRef) (h : Heap) : Option Cell :=
  st.draggedAddr.map h.cells

/-- A state whose dragged element lives at address 2. -/
def c8State : AppStateRef :=
  { invAddr := 0, stacksAddr := 1, draggedAddr := some 2,
    lastUpdateTime := none }

/-- A heap for the C8 counterexample. -/
def c8Heap : Heap := { cells := fun _ => Cell.elemCell "original", next := 3 }

/-! ## Claim C9: observer notification (`js/state.js`)

`this.listeners` is a JS `Set` of callbacks, iterated in insertion
(registration) order by `forEach`; each callback runs inside
`try { listener(this.getState()) } catch (error) { console.error(...) }`.
A listener is a pure function returning `Except` (an exception is the
`error` case); a notification pass produces one event per listener â the
caught-and-logged error, if any, is part of the event, and never stops the
pass. -/

/-- The value-level application state record (`this.state`). -/
structure StateSnap where
  toolInventory : Inventory
  expandedStacks : List String
  draggedElement : Option Nat
  lastUpdateTime : Option String
  deriving DecidableEq

/-- A registered listener: its identity (JS function-object identity) and
its behaviour on the state snapshot it receives. -/
structure ListenerSpec where
  id : Nat
  behave : StateSnap → Except String Unit

/-- The state container with its listener Set in insertion order. -/
structure AppStateV where
  snap : StateSnap
  listeners : List ListenerSpec

/-- `subscribe(listener)` (lines 155-158): `Set.add` â appended unless the
same listener is already registered. -/
def subscribe (st : AppStateV) (l : ListenerSpec) : AppStateV :=
  if st.listeners.any (fun x => x.id = l.id) then st
  else { st with listeners := st.listeners ++ [l] }

/-- One observed notification: which listener ran, the snapshot it was
handed, and the error `console.error` logged if it threw. -/
structure NotifyEvent where
  id : Nat
  observed : StateSnap
  errorLogged : Option String

/-- `notifyListeners()` (lines 163-171): every listener is invoked with the
(fresh copy of the) current state; a throwing listener has its exception
caught and logged, and the iteration continues â which is why this is a
total `map` over the listener list. -/
def notifyListeners (st : AppStateV) : List NotifyEvent :=
  st.listeners.map (fun l =>
    { id := l.id, observed := st.snap,
      errorLogged :=
        match l.behave st.snap with
        | Except.ok _ => none
        | Except.error e => some e })

/-- A `setState` update object: the fields `{...updates}` overrides. -/
structure StateUpdates where
  toolInventory : Option Inventory := none
  expandedStacks : Option (List String) := none
  draggedElement : Option (Option Nat) := none
  lastUpdateTime : Option (Option String) := none

/-- `{ ...this.state, ...updates }`. -/
def mergeState (s : StateSnap) (u : StateUpdates) : StateSnap :=
  { toolInventory := u.toolInventory.getD s.toolInventory,
    expandedStacks := u.expandedStacks.getD s.expandedStacks,
    draggedElement := u.draggedElement.getD s.draggedElement,
    lastUpdateTime := u.lastUpdateTime.getD s.lastUpdateTime }

/-- `setState(updates)` (lines 43-49): replace the state wholesale, then
notify synchronously â the notification events are part of the call's
result, completed before it returns. -/
def setState (st : AppStateV) (u : StateUpdates) :
    AppStateV × List NotifyEvent :=
  let st1 := { st with snap := mergeState st.snap u }
  (st1, notifyListeners st1)

/-- `reset()` (lines 176-184): restore the default state, then the same
`notifyListeners()`. -/
def resetState (st : AppStateV) : AppStateV × List NotifyEvent :=
  let st1 : AppStateV :=
    { snap := { toolInventory := DEFAULT_TOOL_INVENTORY, expandedStacks := [],
                draggedElement := none, lastUpdateTime := none },
      listeners := st.listeners }
  (st1, notifyListeners st1)

/-- A listener that always throws, for the C9 witness. -/
def c9L1 : ListenerSpec := { id := 1, behave := fun _ => Except.error "boom" }

/-- A well-behaved listener registered after the throwing one. -/
def c9L2 : ListenerSpec := { id := 2, behave := fun _ => Except.ok () }

/-- A state with the two listeners registered in order. -/
def c9State : AppStateV :=
  { snap := { toolInventory := [], expandedStacks := [],
              draggedElement := none, lastUpdateTime := none },
    listeners := [c9L1, c9L2] }

/-! ## Theorems -/

/-- Being in exactly one state is exactly: never `checked-out` while
parented in the broken pool. -/
theorem stateCount_eq_one_iff (e : ToolElem) :
    stateCount e = 1 ↔ (e.checkedOut = true → e.loc ≠ Loc.brokenPool) := by
  cases h1 : e.checkedOut <;> by_cases h2 : e.loc = Loc.brokenPool <;>
    simp [stateCount, availableState, checkedOutState, brokenState, h1, h2]

theorem exactlyOneState_iff (d : Dom) :
    ExactlyOneState d ↔ NoCheckedBroken d.tools := by
  unfold ExactlyOneState NoCheckedBroken
  exact forall₂_congr (fun e _ => stateCount_eq_one_iff e)

/-! ## Helper lemmas on the element operations -/

theorem updateStackCount_tools (d : Dom) (s : String) :
    (updateStackCount d s).tools = d.tools := rfl

theorem refreshStackFor_tools (d : Dom) (l : Loc) :
    (refreshStackFor d l).tools = d.tools := by
  cases l <;> rfl

theorem modifyElem_tools (d : Dom) (i : Nat) (f : ToolElem → ToolElem) :
    (modifyElem d i f).tools =
      d.tools.map (fun e => if e.elemId = i then f e else e) := rfl

theorem mem_modify_tools {d : Dom} {i : Nat} {f : ToolElem → ToolElem}
    {x : ToolElem} (hx : x ∈ (modifyElem d i f).tools) :
    ∃ e ∈ d.tools, x = if e.elemId = i then f e else e := by
  rcases List.mem_map.mp hx with ⟨e, he, hxe⟩
  exact ⟨e, he, hxe.symm⟩

theorem noCheckedBroken_modify {d : Dom} {i : Nat} {f : ToolElem → ToolElem}
    (h : NoCheckedBroken d.tools)
    (hf : ∀ e ∈ d.tools, e.elemId = i →
      ((f e).checkedOut = true → (f e).loc ≠ Loc.brokenPool)) :
    NoCheckedBroken (modifyElem d i f).tools := by
  intro x hx
  rcases mem_modify_tools hx with ⟨e, he, hxe⟩
  subst hxe
  by_cases hid : e.elemId = i
  · simpa [hid] using hf e he hid
  · simpa [hid] using h e he

theorem noCheckedBroken_returnTool {d : Dom} (n : String) (k : Nat)
    (h : NoCheckedBroken d.tools) :
    NoCheckedBroken (returnTool d n k).2.tools := by
  unfold returnTool
  cases hq : queryTool d n k with
  | none => simpa using h
  | some e =>
    have hm : NoCheckedBroken (modifyElem d e.elemId returnMut).tools :=
      noCheckedBroken_modify h (fun x _ _ hco => by simp [returnMut] at hco)
    simpa [refreshStackFor_tools] using hm

theorem noCheckedBroken_fold_return (ids : List (String × Nat)) :
    ∀ (p : Nat × Dom), NoCheckedBroken p.2.tools →
      NoCheckedBroken ((ids.foldl
        (fun (p : Nat × Dom) id =>
          (p.1 + (if (returnTool p.2 id.1 id.2).1 then 1 else 0),
           (returnTool p.2 id.1 id.2).2))
        p).2).tools := by
  induction ids with
  | nil => intro p hp; simpa using hp
  | cons id rest ih =>
    intro p hp
    exact ih _ (noCheckedBroken_returnTool id.1 id.2 hp)

theorem noCheckedBroken_returnAll {d : Dom}
    (h : NoCheckedBroken d.tools) :
    NoCheckedBroken ((returnAllTools d).2).tools := by
  have := noCheckedBroken_fold_return
    ((d.tools.filter (fun e => e.checkedOut)).map
      (fun e => (e.toolName, e.toolNumber))) (0, d) h
  simpa [returnAllTools] using this

theorem noCheckedBroken_handleReturn {d : Dom} (n : String) (k : Nat)
    (h : NoCheckedBroken d.tools) :
    NoCheckedBroken (handleReturnTool d n k).tools := by
  have h1 := noCheckedBroken_returnTool (d := d) n k h
  unfold handleReturnTool
  by_cases hok : (returnTool d n k).1 = true <;> simp [hok] <;> exact h1

theorem noCheckedBroken_checkoutTool {d : Dom} {i : Nat} (c : Nat) (t : String)
    (h : NoCheckedBroken d.tools)
    (hguard : ∀ e ∈ d.tools, e.elemId = i → e.loc ≠ Loc.brokenPool) :
    NoCheckedBroken (checkoutTool d i c t).2.tools := by
  unfold checkoutTool
  cases hq : findById d i with
  | none => simpa using h
  | some e =>
    have hm : NoCheckedBroken (modifyElem d i (checkoutMut c t)).tools :=
      noCheckedBroken_modify h
        (fun x hx hid _ => by simpa [checkoutMut] using hguard x hx hid)
    simpa using hm

theorem noCheckedBroken_markBroken {d : Dom} {i : Nat}
    (h : NoCheckedBroken d.tools)
    (hguard : ∀ e ∈ d.tools, e.elemId = i → e.checkedOut = false) :
    NoCheckedBroken (markToolBroken d i).2.tools := by
  unfold markToolBroken
  cases hq : findById d i with
  | none => simpa using h
  | some e =>
    have hm : NoCheckedBroken (modifyElem d i breakMut).tools := by
      refine noCheckedBroken_modify h (fun x hx hid hco => ?_)
      exact absurd (show x.checkedOut = true from hco)
        (by simp [hguard x hx hid])
    simpa using hm

theorem noCheckedBroken_resourceDrop {d : Dom} {i : Nat} {pid : String}
    {e : ToolElem} (h : NoCheckedBroken d.tools) :
    NoCheckedBroken
      (modifyElem (if e.broken then (unmarkToolBroken d i).2 else d) i
        (fun e => { e with loc := Loc.pool pid })).tools := by
  have h1 : NoCheckedBroken
      ((if e.broken then (unmarkToolBroken d i).2 else d)).tools := by
    by_cases hb : e.broken = true
    · simp only [hb, if_pos]
      unfold unmarkToolBroken
      cases hq : findById d i with
      | none => simpa using h
      | some x =>
        have := noCheckedBroken_modify (i := i)
          (f := fun e => { e with broken := false }) h
          (fun x hx _ hco => h x hx (show x.checkedOut = true from hco))
        simpa using this
    · simp only [Bool.not_eq_true] at hb
      simpa [hb] using h
  exact noCheckedBroken_modify h1 (fun x _ _ _ => by simp)

theorem noCheckedBroken_initial : NoCheckedBroken initialDom.tools := by
  unfold NoCheckedBroken
  decide

theorem noCheckedBroken_applyOp {d : Dom} (op : Op) (hop : SafeOp d op)
    (h : NoCheckedBroken d.tools) :
    NoCheckedBroken (applyOp d op).tools := by
  cases op with
  | dragDrop i target time =>
    show NoCheckedBroken (dragDropOp d i target time).tools
    unfold dragDropOp
    cases hq : findById d i with
    | none => simpa using h
    | some e =>
      by_cases hco : e.checkedOut = true
      · simpa [hco] using h
      · simp only [Bool.not_eq_true] at hco
        simp only [hco, if_neg, Bool.false_eq_true, not_false_eq_true, if_false]
        unfold handleDrop
        rw [hq]
        cases target with
        | crewZone c =>
          have h1 := noCheckedBroken_checkoutTool (d := d) (i := i) c time h hop
          by_cases hok : (checkoutTool d i c time).1 = true <;>
            simp [hok, refreshStackFor_tools] <;> exact h1
        | brokenZone =>
          exact noCheckedBroken_markBroken h hop
        | resourcePool pid =>
          exact noCheckedBroken_resourceDrop (e := e) h
        | otherZone => exact h
  | returnOne n k => exact noCheckedBroken_handleReturn n k h
  | returnAll => exact noCheckedBroken_returnAll h
  | load inv cks bks => exact hop

theorem noCheckedBroken_reachableSafe {d : Dom} (h : ReachableSafe d) :
    NoCheckedBroken d.tools := by
  induction h with
  | init => exact noCheckedBroken_initial
  | step op hop _ ih => exact noCheckedBroken_applyOp op hop ih

/-- C1, counterexample: it is not true that every Tool Instance of every
reachable state is in exactly one of the three states.  After
`markToolBroken` and a crew drop of the same element, Claw Hammer number 1
is both in the broken pool and checked out. -/
theorem c1_mutual_exclusivity_cex :
    ¬ (∀ d : Dom, Reachable d → ExactlyOneState d) := by
  intro hclaim
  have hr : Reachable c1CexDom :=
    Reachable.step _ (Reachable.step _ Reachable.init)
  have h1 := hclaim c1CexDom hr
  have h2 : ¬ ExactlyOneState c1CexDom := by
    unfold ExactlyOneState
    decide
  exact h2 h1

/-- C1, amended: for every state reachable by checkout, return, return-all,
mark-broken, unmark-broken and snapshot-load operations in which no
crew-zone drop targets a broken-pool instance and no loaded snapshot records
an instance as simultaneously checked out and broken, every Tool Instance is
in exactly one of the three states available / checked-out / broken. -/
theorem c1_mutual_exclusivity_amended {d : Dom} (h : ReachableSafe d) :
    ExactlyOneState d :=
  (exactlyOneState_iff d).mpr (noCheckedBroken_reachableSafe h)

/-- C1, witness: the amended theorem applied to a concrete reachable state
(the initial render followed by a safe broken-pool drop). -/
theorem c1_mutual_exclusivity_amended_witness :
    ExactlyOneState
      (applyOp initialDom (Op.dragDrop 0 DropTarget.brokenZone "07:00")) :=
  c1_mutual_exclusivity_amended
    (ReachableSafe.step _ (by unfold SafeOp; decide) ReachableSafe.init)

/-- Elements produced by `createToolStack` / `createToolElement` carry no
checkout state at all. -/
theorem renderTool_mem {t : ToolDef} {pid : String} {base : Nat} {e : ToolElem}
    (he : e ∈ (renderTool t pid base).1) :
    e.checkedOut = false ∧ e.crewData = none ∧ e.checkoutTimeData = none := by
  unfold renderTool at he
  by_cases h : t.qty = 1
  · simp [h] at he
    simp [he]
  · simp [h] at he
    rcases he with ⟨j, _, hj⟩
    simp [← hj]

theorem renderCategory_fold_mem {pid : String} (ts : List ToolDef) :
    ∀ (acc : List ToolElem × List StackElem × Nat),
      (∀ e ∈ acc.1, e.checkedOut = false ∧ e.crewData = none ∧
        e.checkoutTimeData = none) →
      ∀ e ∈ (ts.foldl
        (fun acc t =>
          (acc.1 ++ (renderTool t pid acc.2.2).1,
           acc.2.1 ++ (renderTool t pid acc.2.2).2,
           acc.2.2 + t.qty)) acc).1,
        e.checkedOut = false ∧ e.crewData = none ∧ e.checkoutTimeData = none := by
  induction ts with
  | nil => intro acc hacc; simpa using hacc
  | cons t rest ih =>
    intro acc hacc
    refine ih _ ?_
    intro e he
    rcases List.mem_append.mp he with h1 | h2
    · exact hacc e h1
    · exact renderTool_mem h2

theorem renderCategory_mem {pid : String} {ts : List ToolDef} {base : Nat}
    {e : ToolElem} (he : e ∈ (renderCategory ts pid base).1) :
    e.checkedOut = false ∧ e.crewData = none ∧ e.checkoutTimeData = none :=
  renderCategory_fold_mem ts ([], [], base) (by simp) e he

theorem renderInventory_fold_mem (inv : Inventory) :
    ∀ (acc : List ToolElem × List StackElem × Nat),
      (∀ x ∈ acc.1, x.checkedOut = false ∧ x.crewData = none ∧
        x.checkoutTimeData = none) →
      ∀ e ∈ (inv.foldl renderStep acc).1,
        e.checkedOut = false ∧ e.crewData = none ∧ e.checkoutTimeData = none := by
  induction inv with
  | nil => intro acc hacc; simpa using hacc
  | cons cat rest ih =>
    intro acc hacc
    refine ih _ ?_
    unfold renderStep
    cases halist : alistLookup POOL_IDS cat.1 with
    | none => simpa using hacc
    | some pid =>
      simp only
      intro x hx
      rcases List.mem_append.mp hx with h1 | h2
      · exact hacc x h1
      · exact renderCategory_mem h2

theorem renderInventory_mem {inv : Inventory} {base : Nat} {e : ToolElem}
    (he : e ∈ (renderInventory inv base).tools) :
    e.checkedOut = false ∧ e.crewData = none ∧ e.checkoutTimeData = none :=
  renderInventory_fold_mem inv ([], [], base) (by simp) e he

/-- Pointwise preservation of an element predicate by `modifyElem`. -/
theorem allTools_modify {P : ToolElem → Prop} {d : Dom} {i : Nat}
    {f : ToolElem → ToolElem} (h : ∀ e ∈ d.tools, P e)
    (hf : ∀ e ∈ d.tools, e.elemId = i → P (f e)) :
    ∀ e ∈ (modifyElem d i f).tools, P e := by
  intro x hx
  rcases mem_modify_tools hx with ⟨e, he, hxe⟩
  subst hxe
  by_cases hid : e.elemId = i
  · simpa [hid] using hf e he hid
  · simpa [hid] using h e he

theorem residual_returnTool {d : Dom} (n : String) (k : Nat)
    (h : ∀ e ∈ d.tools, ResidualFree e) :
    ∀ e ∈ (returnTool d n k).2.tools, ResidualFree e := by
  unfold returnTool
  cases hq : queryTool d n k with
  | none => simpa using h
  | some e =>
    have hm : ∀ x ∈ (modifyElem d e.elemId returnMut).tools, ResidualFree x :=
      allTools_modify h (fun x _ _ => fun _ => ⟨rfl, rfl⟩)
    simpa [refreshStackFor_tools] using hm

theorem residual_checkoutTool {d : Dom} (i c : Nat) (t : String)
    (h : ∀ e ∈ d.tools, ResidualFree e) :
    ∀ e ∈ (checkoutTool d i c t).2.tools, ResidualFree e := by
  unfold checkoutTool
  cases hq : findById d i with
  | none => simpa using h
  | some e =>
    have hm : ∀ x ∈ (modifyElem d i (checkoutMut c t)).tools, ResidualFree x :=
      allTools_modify h (fun x _ _ => fun hx => Bool.noConfusion hx)
    simpa using hm

theorem residual_fold_return (ids : List (String × Nat)) :
    ∀ (p : Nat × Dom), (∀ e ∈ p.2.tools, ResidualFree e) →
      ∀ e ∈ ((ids.foldl
        (fun (p : Nat × Dom) id =>
          (p.1 + (if (returnTool p.2 id.1 id.2).1 then 1 else 0),
           (returnTool p.2 id.1 id.2).2))
        p).2).tools, ResidualFree e := by
  induction ids with
  | nil => intro p hp; simpa using hp
  | cons id rest ih =>
    intro p hp
    exact ih _ (residual_returnTool id.1 id.2 hp)

theorem residual_loadOneCheckout {d : Dom} (c : Nat) (lt : LoadTool)
    (h : ∀ e ∈ d.tools, ResidualFree e) :
    ∀ e ∈ (loadOneCheckout d c lt).tools, ResidualFree e := by
  unfold loadOneCheckout
  cases hq : queryTool d lt.tool lt.number with
  | none => simpa using h
  | some e =>
    have hm : ∀ x ∈ (modifyElem d e.elemId (checkoutMut c lt.time)).tools,
        ResidualFree x :=
      allTools_modify h (fun x _ _ => fun hx => Bool.noConfusion hx)
    simpa [refreshStackFor_tools] using hm

theorem residual_loadGroup (c : Nat) (lts : List LoadTool) :
    ∀ (d : Dom), (∀ e ∈ d.tools, ResidualFree e) →
      ∀ e ∈ (lts.foldl (fun d lt => loadOneCheckout d c lt) d).tools,
        ResidualFree e := by
  induction lts with
  | nil => intro d h; simpa using h
  | cons lt rest ih =>
    intro d h
    exact ih _ (residual_loadOneCheckout c lt h)

theorem residual_loadCheckouts {d : Dom} (data : List CrewLoad)
    (h : ∀ e ∈ d.tools, ResidualFree e) :
    ∀ e ∈ (loadCheckouts data d).tools, ResidualFree e := by
  unfold loadCheckouts
  induction data generalizing d with
  | nil => simpa using h
  | cons g rest ih =>
    simp only [List.foldl_cons]
    refine ih ?_
    by_cases hc : 1 ≤ g.crew ∧ g.crew ≤ CREW_COUNT
    · rw [if_pos hc]
      exact residual_loadGroup g.crew g.tools d h
    · rw [if_neg hc]
      exact h

theorem residual_loadBrokenTools {d : Dom} (data : List BrokenLoad)
    (h : ∀ e ∈ d.tools, ResidualFree e) :
    ∀ e ∈ (loadBrokenTools data d).tools, ResidualFree e := by
  unfold loadBrokenTools
  induction data generalizing d with
  | nil => simpa using h
  | cons b rest ih =>
    simp only [List.foldl_cons]
    refine ih ?_
    cases hq : queryTool d b.name b.number with
    | none => simpa [hq] using h
    | some e =>
      simp only [hq]
      exact allTools_modify h (fun x hx _ => fun hco =>
        (h x hx) (show x.checkedOut = false from hco))

theorem residual_applyOp {d : Dom} (op : Op)
    (h : ∀ e ∈ d.tools, ResidualFree e) :
    ∀ e ∈ (applyOp d op).tools, ResidualFree e := by
  cases op with
  | dragDrop i target time =>
    show ∀ e ∈ (dragDropOp d i target time).tools, ResidualFree e
    unfold dragDropOp
    cases hq : findById d i with
    | none => simpa using h
    | some e =>
      by_cases hco : e.checkedOut = true
      · simpa [hco] using h
      · simp only [Bool.not_eq_true] at hco
        simp only [hco, Bool.false_eq_true, not_false_eq_true, if_false]
        unfold handleDrop
        rw [hq]
        cases target with
        | crewZone c =>
          have h1 := residual_checkoutTool i c time h
          by_cases hok : (checkoutTool d i c time).1 = true <;>
            simp [hok, refreshStackFor_tools] <;> exact h1
        | brokenZone =>
          unfold markToolBroken
          rw [hq]
          exact allTools_modify h (fun x hx _ => fun hc =>
            (h x hx) (show x.checkedOut = false from hc))
        | resourcePool pid =>
          have h1 : ∀ x ∈ ((if e.broken then (unmarkToolBroken d i).2
              else d)).tools, ResidualFree x := by
            by_cases hb : e.broken = true
            · simp only [hb, if_pos]
              unfold unmarkToolBroken
              rw [hq]
              exact allTools_modify h (fun x hx _ => fun hc =>
                (h x hx) (show x.checkedOut = false from hc))
            · simp only [Bool.not_eq_true] at hb
              simpa [hb] using h
          exact allTools_modify h1 (fun x hx _ => fun hc =>
            (h1 x hx) (show x.checkedOut = false from hc))
        | otherZone => exact h
  | returnOne n k =>
    have h1 := residual_returnTool (d := d) n k h
    show ∀ e ∈ (handleReturnTool d n k).tools, ResidualFree e
    unfold handleReturnTool
    by_cases hok : (returnTool d n k).1 = true <;> simp [hok] <;> exact h1
  | returnAll =>
    have := residual_fold_return
      ((d.tools.filter (fun e => e.checkedOut)).map
        (fun e => (e.toolName, e.toolNumber))) (0, d) h
    simpa [returnAllTools] using this
  | load inv cks bks =>
    show ∀ e ∈ (loadSnapshotOp d inv cks bks).tools, ResidualFree e
    unfold loadSnapshotOp
    refine residual_loadBrokenTools _ (residual_loadCheckouts _ ?_)
    intro x hx
    rcases List.mem_append.mp hx with h1 | h2
    · intro hc
      rcases renderInventory_mem h1 with ⟨_, h3, h4⟩
      exact ⟨h3, h4⟩
    · exact h x (List.mem_filter.mp h2).1

/-- In every reachable state, elements without the `checked-out` class have
no residual crew / checkout-time association. -/
theorem residual_reachable {d : Dom} (h : Reachable d) :
    ∀ e ∈ d.tools, ResidualFree e := by
  induction h with
  | init =>
    intro e he
    rcases renderInventory_mem he with ⟨_, h3, h4⟩
    exact fun _ => ⟨h3, h4⟩
  | step op _ ih => exact residual_applyOp op ih

/-- `findById` commutes with `modifyElem` at the same identity, for
identity-preserving mutations. -/
theorem findById_modify (d : Dom) (i : Nat) (f : ToolElem → ToolElem)
    (hf : ∀ e, (f e).elemId = e.elemId) :
    findById (modifyElem d i f) i =
      (findById d i).map (fun e => if e.elemId = i then f e else e) := by
  unfold findById modifyElem
  rw [List.find?_map]
  have hpg : ((fun e => decide (e.elemId = i)) ∘
      fun e => if e.elemId = i then f e else e) =
      (fun (e : ToolElem) => decide (e.elemId = i)) := by
    funext e
    by_cases h : e.elemId = i <;> simp [h, hf]
  rw [hpg]

/-! ## Claim C5 -/

/-- C5: in any reachable state, dropping a draggable (hence not
checked-out) Tool Instance onto the broken pool re-parents it into the
broken pool, tags it `broken`, and leaves it with no crew or checkout-time
association (there was none to begin with, by the reachable-state invariant
`residual_reachable`; `markToolBroken` itself clears nothing). -/
theorem c5_broken_drop {d : Dom} (h : Reachable d) {i : Nat} {e : ToolElem}
    (t : String) (he : findById d i = some e) (hco : e.checkedOut = false) :
    ∃ x, findById (dragDropOp d i DropTarget.brokenZone t) i = some x ∧
      x.loc = Loc.brokenPool ∧ x.broken = true ∧
      x.crewData = none ∧ x.checkoutTimeData = none := by
  have hei : e.elemId = i := by simpa using List.find?_some he
  have hmem : e ∈ d.tools := List.mem_of_find?_eq_some he
  have hres := residual_reachable h e hmem hco
  unfold dragDropOp handleDrop markToolBroken
  rw [he]
  dsimp only
  simp only [hco, Bool.false_eq_true, not_false_eq_true, if_false]
  rw [findById_modify d i breakMut (fun x => rfl), he]
  refine ⟨_, rfl, ?_⟩
  simp only [Option.map_some, hei, if_pos rfl]
  exact ⟨rfl, rfl, hres.1, hres.2⟩

/-- C5, witness: the theorem applied to the initial render and Claw Hammer
number 1 (element id 0). -/
theorem c5_broken_drop_witness :
    ∃ x, findById (dragDropOp initialDom 0 DropTarget.brokenZone "07:00") 0 =
        some x ∧
      x.loc = Loc.brokenPool ∧ x.broken = true ∧
      x.crewData = none ∧ x.checkoutTimeData = none :=
  c5_broken_drop Reachable.init "07:00" rfl rfl

/-! ## Claim C2: checkout / return round trip -/

theorem find?_unique {α : Type} {p : α → Bool} {l : List α} {e : α}
    (hmem : e ∈ l) (hpe : p e = true)
    (huniq : ∀ x ∈ l, p x = true → x = e) :
    l.find? p = some e := by
  induction l with
  | nil => cases hmem
  | cons a l ih =>
    by_cases hpa : p a = true
    · rw [List.find?_cons_of_pos _ hpa]
      exact congrArg some (huniq a (List.mem_cons_self a l) hpa)
    · rw [List.find?_cons_of_neg _ (by simpa using hpa)]
      have hmem' : e ∈ l := by
        rcases List.mem_cons.mp hmem with rfl | h
        · exact absurd hpe hpa
        · exact h
      exact ih hmem' (fun x hx hpx => huniq x (List.mem_cons_of_mem a hx) hpx)

theorem map_pointwise_id {α : Type} {l : List α} {f : α → α}
    (h : ∀ x ∈ l, f x = x) : l.map f = l := by
  induction l with
  | nil => rfl
  | cons a l ih =>
    rw [List.map_cons, h a (List.mem_cons_self a l),
      ih (fun x hx => h x (List.mem_cons_of_mem a hx))]

theorem queryTool_tools_congr {d1 d2 : Dom} (n : String) (k : Nat)
    (h : d1.tools = d2.tools) : queryTool d1 n k = queryTool d2 n k := by
  unfold queryTool
  rw [h]

theorem availCount_tools_congr {d1 d2 : Dom} (s : String)
    (h : d1.tools = d2.tools) : availCount d1 s = availCount d2 s := by
  unfold availCount
  rw [h]

/-- `queryTool` commutes with `modifyElem`, for name- and
number-preserving mutations. -/
theorem queryTool_modify (d : Dom) (i : Nat) (f : ToolElem → ToolElem)
    (n : String) (k : Nat)
    (hf : ∀ e, (f e).toolName = e.toolName ∧ (f e).toolNumber = e.toolNumber) :
    queryTool (modifyElem d i f) n k =
      (queryTool d n k).map (fun e => if e.elemId = i then f e else e) := by
  unfold queryTool modifyElem
  rw [List.find?_map]
  have hpg : ((fun e => decide (e.toolName = n ∧ e.toolNumber = k)) ∘
      fun e => if e.elemId = i then f e else e) =
      (fun (e : ToolElem) => decide (e.toolName = n ∧ e.toolNumber = k)) := by
    funext e
    by_cases h : e.elemId = i <;> simp [h, (hf e).1, (hf e).2]
  rw [hpg]

/-- C2: for an available Tool Instance (no `checked-out` class, visible, no
checkout datasets) inside stack `s` with a consistent badge, `checkoutTool`
to any crew followed by `returnTool` restores the element list exactly (the
instance is available again with no crew or time association) and restores
the stack elements, in particular the owning stack's displayed available
count.  The element is assumed to be the unique one with its identity, as
in a real DOM. -/
theorem c2_checkout_return_roundtrip {d : Dom} {n : String} {k : Nat}
    {e : ToolElem} {s : String} (c : Nat) (t : String)
    (he : queryTool d n k = some e)
    (hu : ∀ x ∈ d.tools, x.elemId = e.elemId → x = e)
    (hav : e.checkedOut = false ∧ e.broken = false ∧ e.displayNone = false ∧
      e.crewData = none ∧ e.checkoutTimeData = none)
    (hloc : e.loc = Loc.stack s)
    (hst : ∀ st ∈ d.stackEls, st.toolName = s →
      st.badge = availCount d s ∧ st.hidden = decide (availCount d s = 0)) :
    (returnTool (checkoutTool d e.elemId c t).2 n k).2.tools = d.tools ∧
    (returnTool (checkoutTool d e.elemId c t).2 n k).2.stackEls = d.stackEls ∧
    queryTool (returnTool (checkoutTool d e.elemId c t).2 n k).2 n k = some e := by
  obtain ⟨hnm, hnum⟩ : e.toolName = n ∧ e.toolNumber = k := by
    simpa using List.find?_some he
  have hmem : e ∈ d.tools := List.mem_of_find?_eq_some he
  have hA : findById d e.elemId = some e := by
    unfold findById
    exact find?_unique hmem (by simp)
      (fun x hx hpx => hu x hx (by simpa using hpx))
  have hc2t : (checkoutTool d e.elemId c t).2.tools =
      (modifyElem d e.elemId (checkoutMut c t)).tools := by
    unfold checkoutTool
    rw [hA]
  have hc2s : (checkoutTool d e.elemId c t).2.stackEls = d.stackEls := by
    unfold checkoutTool
    rw [hA]
    rfl
  have hq1 : queryTool (checkoutTool d e.elemId c t).2 n k =
      some (checkoutMut c t e) := by
    rw [queryTool_tools_congr n k hc2t]
    rw [queryTool_modify d e.elemId (checkoutMut c t) n k
      (fun x => ⟨rfl, rfl⟩)]
    rw [he]
    simp
  have htools : (modifyElem (checkoutTool d e.elemId c t).2
      (checkoutMut c t e).elemId returnMut).tools = d.tools := by
    show (modifyElem (checkoutTool d e.elemId c t).2 e.elemId returnMut).tools
      = d.tools
    rw [modifyElem_tools, hc2t, modifyElem_tools, List.map_map]
    refine map_pointwise_id ?_
    intro x hx
    by_cases hid : x.elemId = e.elemId
    · have hxe : x = e := hu x hx hid
      subst hxe
      obtain ⟨h1, h2, h3, h4, h5⟩ := hav
      obtain ⟨eid, enm, enum, eco, ebr, edn, ecd, ect, elc⟩ := x
      subst h1; subst h3; subst h4; subst h5
      simp [checkoutMut, returnMut]
    · simp [Function.comp, hid]
  have hstacks : (modifyElem (checkoutTool d e.elemId c t).2
      (checkoutMut c t e).elemId returnMut).stackEls = d.stackEls := by
    show (modifyElem (checkoutTool d e.elemId c t).2 e.elemId returnMut).stackEls
      = d.stackEls
    exact hc2s
  refine ⟨?_, ?_, ?_⟩
  · unfold returnTool
    rw [hq1]
    dsimp only
    rw [refreshStackFor_tools]
    exact htools
  · unfold returnTool
    rw [hq1]
    dsimp only
    show (refreshStackFor _ (checkoutMut c t e).loc).stackEls = d.stackEls
    have hloc2 : (checkoutMut c t e).loc = Loc.stack s := hloc
    rw [hloc2]
    show (updateStackCount _ s).stackEls = d.stackEls
    simp only [updateStackCount]
    rw [availCount_tools_congr s htools, hstacks]
    refine map_pointwise_id ?_
    intro st hstm
    by_cases hname : st.toolName = s
    · obtain ⟨b1, b2⟩ := hst st hstm hname
      rw [if_pos hname]
      obtain ⟨snm, sq, sb, sh⟩ := st
      subst b1; subst b2
      rfl
    · rw [if_neg hname]
  · unfold returnTool
    rw [hq1]
    dsimp only
    rw [queryTool_tools_congr n k
      ((refreshStackFor_tools _ _).trans htools)]
    exact he

/-- C2, witness: the round trip on a concrete two-instance stack, crew 3. -/
theorem c2_checkout_return_roundtrip_witness :
    (returnTool (checkoutTool c2Dom c2e.elemId 3 "08:00").2 "Hammer" 1).2.tools =
      c2Dom.tools ∧
    (returnTool (checkoutTool c2Dom c2e.elemId 3 "08:00").2 "Hammer" 1).2.stackEls =
      c2Dom.stackEls ∧
    queryTool (returnTool (checkoutTool c2Dom c2e.elemId 3 "08:00").2 "Hammer" 1).2
      "Hammer" 1 = some c2e :=
  c2_checkout_return_roundtrip (d := c2Dom) (n := "Hammer") (k := 1)
    (e := c2e) (s := "Hammer") 3 "08:00" (by decide) (by decide) (by decide)
    (by decide) (by decide)

/-! ## Store lemmas -/

theorem find?_filter_ne (l : List (String × Payload)) (k k' : String)
    (h : k' ≠ k) :
    (l.filter (fun q => q.1 ≠ k)).find? (fun p => p.1 = k') =
      l.find? (fun p => p.1 = k') := by
  induction l with
  | nil => rfl
  | cons a l ih =>
    by_cases ha : a.1 = k
    · have hk' : ¬(a.1 = k') := fun hk => h (hk ▸ ha)
      rw [List.filter_cons_of_neg (by simp [ha]), ih,
        List.find?_cons_of_neg _ (by simp [hk'])]
    · rw [List.filter_cons_of_pos (by simp [ha])]
      by_cases ha' : a.1 = k'
      · rw [List.find?_cons_of_pos _ (by simp [ha']),
          List.find?_cons_of_pos _ (by simp [ha'])]
      · rw [List.find?_cons_of_neg _ (by simp [ha']),
          List.find?_cons_of_neg _ (by simp [ha']), ih]

theorem find?_filter_self (l : List (String × Payload)) (k : String) :
    (l.filter (fun q => q.1 ≠ k)).find? (fun p => p.1 = k) = none := by
  rw [List.find?_eq_none]
  intro x hx
  have h2 := (List.mem_filter.mp hx).2
  simp only [decide_not, Bool.not_eq_eq_eq_not, Bool.not_true,
    decide_eq_false_iff_not] at h2
  simpa using h2

theorem lookup_set_self (st : Store) (k : String) (p : Payload) :
    lookupStore (storeSet st k p) k = some p := by
  unfold lookupStore storeSet
  rw [List.find?_cons_of_pos _ (by simp)]
  rfl

theorem lookup_set_ne (st : Store) (k : String) (p : Payload) (k' : String)
    (h : k' ≠ k) : lookupStore (storeSet st k p) k' = lookupStore st k' := by
  unfold lookupStore storeSet
  rw [List.find?_cons_of_neg _ (by simp [Ne.symm h]),
    find?_filter_ne _ _ _ h]

theorem lookup_erase_self (st : Store) (k : String) :
    lookupStore (storeErase st k) k = none := by
  unfold lookupStore storeErase
  rw [find?_filter_self]
  rfl

theorem lookup_erase_ne (st : Store) (k k' : String) (h : k' ≠ k) :
    lookupStore (storeErase st k) k' = lookupStore st k' := by
  unfold lookupStore storeErase
  rw [find?_filter_ne _ _ _ h]

theorem avail_storeSet (st : Store) (k : String) (p : Payload) :
    (storeSet st k p).avail = st.avail := rfl

theorem avail_storeErase (st : Store) (k : String) :
    (storeErase st k).avail = st.avail := rfl

theorem avail_setItem (st : Store) (k : String) (v : SVal) :
    ((setItem st k v).2).avail = st.avail := by
  unfold setItem
  by_cases h : st.avail = false <;> simp [h, storeSet]

theorem avail_removeItem (st : Store) (k : String) :
    ((removeItem st k).2).avail = st.avail := by
  unfold removeItem
  by_cases h : st.avail = false <;> simp [h, storeErase]

theorem setItem_of_avail {st : Store} (h : st.avail = true) (k : String)
    (v : SVal) : setItem st k v = (true, storeSet st k (Payload.ok v)) := by
  unfold setItem
  rw [if_neg (by simp [h])]

theorem removeItem_of_avail {st : Store} (h : st.avail = true) (k : String) :
    removeItem st k = (true, storeErase st k) := by
  unfold removeItem
  rw [if_neg (by simp [h])]

theorem lookup_setItem_ne (st : Store) (k : String) (v : SVal) (k' : String)
    (h : k' ≠ k) : lookupStore (setItem st k v).2 k' = lookupStore st k' := by
  unfold setItem
  by_cases hav : st.avail = false
  · rw [if_pos hav]
  · rw [if_neg hav]
    exact lookup_set_ne st k _ k' h

theorem lookup_removeItem_ne (st : Store) (k k' : String) (h : k' ≠ k) :
    lookupStore (removeItem st k).2 k' = lookupStore st k' := by
  unfold removeItem
  by_cases hav : st.avail = false
  · rw [if_pos hav]
  · rw [if_neg hav]
    exact lookup_erase_ne st k k' h

/-! ## Storage key disjointness -/

theorem historyKey_inj {a b : String} (h : historyKey a = historyKey b) :
    a = b := by
  unfold historyKey at h
  have h2 := congrArg String.data h
  rw [String.data_append, String.data_append] at h2
  exact String.ext (List.append_cancel_left h2)

theorem historyKey_ne_index (k : String) : historyKey k ≠ HISTORY_INDEX_KEY := by
  intro h
  unfold historyKey HISTORY_INDEX_KEY at h
  have h2 := congrArg String.data h
  rw [String.data_append] at h2
  have e1 : ("toolHistory_").data =
    ['t','o','o','l','H','i','s','t','o','r','y','_'] := rfl
  have e2 : ("toolHistoryIndex").data =
    ['t','o','o','l','H','i','s','t','o','r','y','I','n','d','e','x'] := rfl
  rw [e1, e2] at h2
  simp at h2

theorem historyKey_ne_schedule (k : String) : historyKey k ≠ SCHEDULE_KEY := by
  intro h
  unfold historyKey SCHEDULE_KEY at h
  have h2 := congrArg String.data h
  rw [String.data_append] at h2
  have e1 : ("toolHistory_").data =
    ['t','o','o','l','H','i','s','t','o','r','y','_'] := rfl
  have e2 : ("toolCheckoutSchedule").data =
    ['t','o','o','l','C','h','e','c','k','o','u','t',
     'S','c','h','e','d','u','l','e'] := rfl
  rw [e1, e2] at h2
  simp at h2

theorem historyKey_ne_date (k : String) : historyKey k ≠ DATE_KEY := by
  intro h
  unfold historyKey DATE_KEY at h
  have h2 := congrArg String.data h
  rw [String.data_append] at h2
  have e1 : ("toolHistory_").data =
    ['t','o','o','l','H','i','s','t','o','r','y','_'] := rfl
  have e2 : ("toolCheckoutDate").data =
    ['t','o','o','l','C','h','e','c','k','o','u','t','D','a','t','e'] := rfl
  rw [e1, e2] at h2
  simp at h2

theorem index_ne_schedule : HISTORY_INDEX_KEY ≠ SCHEDULE_KEY := by decide

theorem index_ne_date : HISTORY_INDEX_KEY ≠ DATE_KEY := by decide

/-! ## History index lemmas -/

theorem avail_fold_remove (ks : List String) :
    ∀ st : Store,
      ((ks.foldl (fun s k => (removeItem s (historyKey k)).2) st)).avail =
        st.avail := by
  induction ks with
  | nil => intro st; rfl
  | cons a ks ih =>
    intro st
    rw [List.foldl_cons, ih, avail_removeItem]

theorem lookup_fold_remove (ks : List String) (key : String)
    (h : ∀ k ∈ ks, key ≠ historyKey k) :
    ∀ st : Store,
      lookupStore (ks.foldl (fun s k => (removeItem s (historyKey k)).2) st)
        key = lookupStore st key := by
  induction ks with
  | nil => intro st; rfl
  | cons a ks ih =>
    intro st
    rw [List.foldl_cons, ih (fun k hk => h k (List.mem_cons_of_mem a hk)),
      lookup_removeItem_ne _ _ _ (h a (List.mem_cons_self a ks))]

theorem avail_updateHistoryIndex (st : Store) (dk : String) :
    (updateHistoryIndex st dk).avail = st.avail := by
  simp only [updateHistoryIndex]
  by_cases hmem : dk ∈ indexList st
  · rw [if_pos hmem]
  · rw [if_neg hmem]
    by_cases hlen : 90 < (dk :: indexList st).length
    · rw [if_pos hlen, avail_setItem, avail_fold_remove]
    · rw [if_neg hlen, avail_setItem]

theorem lookup_updateHistoryIndex (st : Store) (dk key : String)
    (h1 : key ≠ HISTORY_INDEX_KEY)
    (h2 : ∀ k, key = historyKey k → k = dk) :
    lookupStore (updateHistoryIndex st dk) key = lookupStore st key := by
  simp only [updateHistoryIndex]
  by_cases hmem : dk ∈ indexList st
  · rw [if_pos hmem]
  · rw [if_neg hmem]
    by_cases hlen : 90 < (dk :: indexList st).length
    · rw [if_pos hlen, lookup_setItem_ne _ _ _ _ h1,
        lookup_fold_remove _ _ ?_]
      intro k hk
      intro hkey
      have hkd : k = dk := h2 k hkey
      subst hkd
      rw [List.drop_succ_cons] at hk
      exact hmem (List.mem_of_mem_drop hk)
    · rw [if_neg hlen, lookup_setItem_ne _ _ _ _ h1]

theorem avail_saveSchedule (st : Store) (snap : Snapshot) (today : String) :
    ((saveSchedule st snap today).2).avail = st.avail := by
  simp only [saveSchedule]
  by_cases hok : (setItem st SCHEDULE_KEY (SVal.sched snap)).1 = true
  · rw [if_pos hok, avail_setItem, avail_setItem]
  · rw [if_neg hok, avail_setItem]

theorem avail_saveToHistory (st : Store) (snap : Snapshot)
    (key nowIso : String) :
    ((saveToHistory st snap key nowIso).2).avail = st.avail := by
  simp only [saveToHistory]
  by_cases hok :
      (setItem st (historyKey key) (SVal.hist ⟨snap, nowIso, key⟩)).1 = true
  · rw [if_pos hok, avail_updateHistoryIndex, avail_setItem]
  · rw [if_neg hok, avail_setItem]

theorem saveToHistory_of_avail {st : Store} (h : st.avail = true)
    (snap : Snapshot) (key nowIso : String) :
    saveToHistory st snap key nowIso =
      (true, updateHistoryIndex
        (storeSet st (historyKey key)
          (Payload.ok (SVal.hist ⟨snap, nowIso, key⟩))) key) := by
  simp only [saveToHistory, setItem_of_avail h, if_true]

theorem saveToHistory_of_unavail {st : Store} (h : st.avail = false)
    (snap : Snapshot) (key nowIso : String) :
    saveToHistory st snap key nowIso = (false, st) := by
  simp only [saveToHistory, setItem, if_pos h, Bool.false_eq_true, if_false]

/-! ## Claim C7 -/

/-- C7: `getItem` is total (it never raises: the model is a function, the
`JSON.parse` exception being caught inside it) and returns the default
exactly on store unavailability, key absence, and an unparseable payload,
and the decoded stored value otherwise. -/
theorem c7_getItem_never_raises (st : Store) (key : String)
    (dflt : Option SVal) :
    (st.avail = false → getItem st key dflt = dflt) ∧
    (lookupStore st key = none → getItem st key dflt = dflt) ∧
    (lookupStore st key = some Payload.bad → getItem st key dflt = dflt) ∧
    (∀ v, st.avail = true → lookupStore st key = some (Payload.ok v) →
      getItem st key dflt = some v) := by
  refine ⟨?_, ?_, ?_, ?_⟩
  · intro h
    simp [getItem, h]
  · intro h
    unfold getItem
    rw [h]
    by_cases hav : st.avail = false <;> simp [hav]
  · intro h
    unfold getItem
    rw [h]
    by_cases hav : st.avail = false <;> simp [hav]
  · intro v hav h
    unfold getItem
    rw [h]
    simp [hav]

/-- C7, witness: the four behaviours at concrete stores. -/
theorem c7_getItem_never_raises_witness :
    getItem c7StoreOff "k" (some (SVal.str "d")) = some (SVal.str "d") ∧
    getItem c7StoreOn "absent" (some (SVal.str "d")) = some (SVal.str "d") ∧
    getItem c7StoreOn "corrupt" (some (SVal.str "d")) = some (SVal.str "d") ∧
    getItem c7StoreOn "good" none = some (SVal.str "v") :=
  ⟨(c7_getItem_never_raises c7StoreOff "k" _).1 rfl,
   (c7_getItem_never_raises c7StoreOn "absent" _).2.1 rfl,
   (c7_getItem_never_raises c7StoreOn "corrupt" _).2.2.1 rfl,
   (c7_getItem_never_raises c7StoreOn "good" none).2.2.2 _ rfl rfl⟩

/-! ## Claim C4 -/

/-- C4: a snapshot saved by `saveSchedule` on `today` (and archived via
`saveToHistory`) is returned by `loadSchedule` while the date marker equals
the current date, and is treated as absent (`null`) on any later date
(whose `toDateString` differs); the archived copy stays retrievable through
`loadFromHistory` regardless. -/
theorem c4_staleness_guard (st : Store) (snap : Snapshot)
    (today tomorrow dkey nowIso : String) (hav : st.avail = true)
    (hne : tomorrow ≠ today) :
    loadSchedule
      (saveToHistory (saveSchedule st snap today).2 snap dkey nowIso).2
      tomorrow = none ∧
    loadSchedule
      (saveToHistory (saveSchedule st snap today).2 snap dkey nowIso).2
      today = some (SVal.sched snap) ∧
    loadFromHistory
      (saveToHistory (saveSchedule st snap today).2 snap dkey nowIso).2
      dkey = some (SVal.hist ⟨snap, nowIso, dkey⟩) := by
  have h1 : (saveSchedule st snap today).2 =
      storeSet (storeSet st SCHEDULE_KEY (Payload.ok (SVal.sched snap)))
        DATE_KEY (Payload.ok (SVal.str today)) := by
    simp only [saveSchedule, setItem_of_avail hav, if_true]
    rw [setItem_of_avail (show (storeSet st SCHEDULE_KEY
      (Payload.ok (SVal.sched snap))).avail = true from hav) DATE_KEY]
  have hav1 : ((saveSchedule st snap today).2).avail = true := by
    rw [avail_saveSchedule]
    exact hav
  have h2 : (saveToHistory (saveSchedule st snap today).2 snap dkey nowIso).2 =
      updateHistoryIndex
        (storeSet (saveSchedule st snap today).2 (historyKey dkey)
          (Payload.ok (SVal.hist ⟨snap, nowIso, dkey⟩))) dkey := by
    rw [saveToHistory_of_avail hav1]
  have hav2 :
      ((saveToHistory (saveSchedule st snap today).2 snap dkey nowIso).2).avail
        = true := by
    rw [avail_saveToHistory, avail_saveSchedule]
    exact hav
  have hlD : lookupStore
      (saveToHistory (saveSchedule st snap today).2 snap dkey nowIso).2
      DATE_KEY = some (Payload.ok (SVal.str today)) := by
    rw [h2, lookup_updateHistoryIndex _ _ _ index_ne_date.symm
      (fun k hk => absurd hk.symm (historyKey_ne_date k)),
      lookup_set_ne _ _ _ _ (historyKey_ne_date dkey).symm, h1,
      lookup_set_self]
  have hlS : lookupStore
      (saveToHistory (saveSchedule st snap today).2 snap dkey nowIso).2
      SCHEDULE_KEY = some (Payload.ok (SVal.sched snap)) := by
    rw [h2, lookup_updateHistoryIndex _ _ _ index_ne_schedule.symm
      (fun k hk => absurd hk.symm (historyKey_ne_schedule k)),
      lookup_set_ne _ _ _ _ (historyKey_ne_schedule dkey).symm, h1,
      lookup_set_ne _ _ _ _ (by decide), lookup_set_self]
  have hlH : lookupStore
      (saveToHistory (saveSchedule st snap today).2 snap dkey nowIso).2
      (historyKey dkey) = some (Payload.ok (SVal.hist ⟨snap, nowIso, dkey⟩)) := by
    rw [h2, lookup_updateHistoryIndex _ _ _ (historyKey_ne_index dkey)
      (fun k hk => historyKey_inj hk.symm), lookup_set_self]
  refine ⟨?_, ?_, ?_⟩
  · unfold loadSchedule isToday getItem
    rw [hlD]
    simp [hav2, hne, Ne.symm hne]
  · unfold loadSchedule isToday getItem
    rw [hlD, hlS]
    simp [hav2]
  · unfold loadFromHistory getItem
    rw [hlH]
    simp [hav2]

/-- C4, witness: save on Monday, load on Tuesday. -/
theorem c4_staleness_guard_witness :
    loadSchedule
      (saveToHistory (saveSchedule emptyStore snap0 "Mon Jan 01 2024").2 snap0
        "2024-01-01" "T").2 "Tue Jan 02 2024" = none ∧
    loadSchedule
      (saveToHistory (saveSchedule emptyStore snap0 "Mon Jan 01 2024").2 snap0
        "2024-01-01" "T").2 "Mon Jan 01 2024" = some (SVal.sched snap0) ∧
    loadFromHistory
      (saveToHistory (saveSchedule emptyStore snap0 "Mon Jan 01 2024").2 snap0
        "2024-01-01" "T").2 "2024-01-01" =
      some (SVal.hist ⟨snap0, "T", "2024-01-01"⟩) :=
  c4_staleness_guard emptyStore snap0 "Mon Jan 01 2024" "Tue Jan 02 2024"
    "2024-01-01" "T" rfl (by decide)

/-! ## Claims C10 and C3: the history index -/

theorem indexList_eq (st1 st2 : Store) (ha : st1.avail = st2.avail)
    (hl : lookupStore st1 HISTORY_INDEX_KEY =
      lookupStore st2 HISTORY_INDEX_KEY) :
    indexList st1 = indexList st2 := by
  unfold indexList getItem
  rw [ha, hl]

theorem indexList_setIndex (st : Store) (l : List String)
    (hav : st.avail = true) :
    indexList (setItem st HISTORY_INDEX_KEY (SVal.strList l)).2 = l := by
  rw [setItem_of_avail hav]
  unfold indexList getItem
  rw [lookup_set_self]
  simp [avail_storeSet, hav]

/-- C10: re-saving a date key already present in the history index
overwrites that date's snapshot record but leaves the stored index payload
untouched: no duplicate is inserted and no reordering happens
(`updateHistoryIndex` does nothing when `index.includes(dateKey)`). -/
theorem c10_reSave_leaves_index (st : Store) (snap : Snapshot)
    (key nowIso : String) (hav : st.avail = true)
    (hmem : key ∈ indexList st) :
    lookupStore (saveToHistory st snap key nowIso).2 HISTORY_INDEX_KEY =
      lookupStore st HISTORY_INDEX_KEY ∧
    indexList (saveToHistory st snap key nowIso).2 = indexList st ∧
    loadFromHistory (saveToHistory st snap key nowIso).2 key =
      some (SVal.hist ⟨snap, nowIso, key⟩) := by
  rw [saveToHistory_of_avail hav]
  dsimp only
  have hl' : lookupStore (storeSet st (historyKey key)
      (Payload.ok (SVal.hist ⟨snap, nowIso, key⟩))) HISTORY_INDEX_KEY =
      lookupStore st HISTORY_INDEX_KEY :=
    lookup_set_ne _ _ _ _ (historyKey_ne_index key).symm
  have hidx' : indexList (storeSet st (historyKey key)
      (Payload.ok (SVal.hist ⟨snap, nowIso, key⟩))) = indexList st :=
    indexList_eq _ _ rfl hl'
  have hupd : updateHistoryIndex (storeSet st (historyKey key)
      (Payload.ok (SVal.hist ⟨snap, nowIso, key⟩))) key =
      storeSet st (historyKey key)
        (Payload.ok (SVal.hist ⟨snap, nowIso, key⟩)) := by
    simp only [updateHistoryIndex]
    rw [if_pos (hidx' ▸ hmem)]
  rw [hupd]
  refine ⟨hl', hidx', ?_⟩
  unfold loadFromHistory getItem
  rw [lookup_set_self]
  simp [avail_storeSet, hav]

/-- C10, witness: re-saving `2024-01-01` on a store already indexing it. -/
theorem c10_reSave_leaves_index_witness :
    lookupStore (saveToHistory c10Store snap0 "2024-01-01" "T").2
      HISTORY_INDEX_KEY = lookupStore c10Store HISTORY_INDEX_KEY ∧
    indexList (saveToHistory c10Store snap0 "2024-01-01" "T").2 =
      indexList c10Store ∧
    loadFromHistory (saveToHistory c10Store snap0 "2024-01-01" "T").2
      "2024-01-01" = some (SVal.hist ⟨snap0, "T", "2024-01-01"⟩) :=
  c10_reSave_leaves_index c10Store snap0 "2024-01-01" "T" rfl (by decide)

theorem indexLen_saveToHistory (st : Store) (snap : Snapshot)
    (key nowIso : String) (h : (indexList st).length ≤ 90) :
    (indexList (saveToHistory st snap key nowIso).2).length ≤ 90 := by
  by_cases hav : st.avail = true
  · rw [saveToHistory_of_avail hav]
    dsimp only
    have hidx' : indexList (storeSet st (historyKey key)
        (Payload.ok (SVal.hist ⟨snap, nowIso, key⟩))) = indexList st :=
      indexList_eq _ _ rfl (lookup_set_ne _ _ _ _ (historyKey_ne_index key).symm)
    have hav' : (storeSet st (historyKey key)
        (Payload.ok (SVal.hist ⟨snap, nowIso, key⟩))).avail = true := hav
    simp only [updateHistoryIndex]
    by_cases hmem : key ∈ indexList (storeSet st (historyKey key)
        (Payload.ok (SVal.hist ⟨snap, nowIso, key⟩)))
    · rw [if_pos hmem, hidx']
      exact h
    · rw [if_neg hmem]
      by_cases hlen : 90 < (key :: indexList (storeSet st (historyKey key)
          (Payload.ok (SVal.hist ⟨snap, nowIso, key⟩)))).length
      · rw [if_pos hlen]
        rw [indexList_setIndex _ _ (by rw [avail_fold_remove]; exact hav')]
        rw [List.length_take]
        exact min_le_left _ _
      · rw [if_neg hlen]
        rw [indexList_setIndex _ _ hav']
        simp only [List.length_cons, not_lt] at hlen ⊢
        exact hlen
  · have hav' : st.avail = false := by simpa using hav
    rw [saveToHistory_of_unavail hav']
    exact h

theorem indexLen_fold (saves : List (Snapshot × String × String)) :
    ∀ st : Store, (indexList st).length ≤ 90 →
      (indexList (saves.foldl
        (fun s a => (saveToHistory s a.1 a.2.1 a.2.2).2) st)).length ≤ 90 := by
  induction saves with
  | nil => intro st h; exact h
  | cons a rest ih =>
    intro st h
    rw [List.foldl_cons]
    exact ih _ (indexLen_saveToHistory st a.1 a.2.1 a.2.2 h)

theorem history_eviction (st : Store) (snap : Snapshot)
    (key nowIso oldest : String) (l' : List String) (hav : st.avail = true)
    (hidx : indexList st = l' ++ [oldest]) (hlen : l'.length = 89)
    (hkey : key ∉ l' ++ [oldest]) (hold : oldest ∉ l') :
    indexList (saveToHistory st snap key nowIso).2 = key :: l' ∧
    oldest ∉ indexList (saveToHistory st snap key nowIso).2 ∧
    loadFromHistory (saveToHistory st snap key nowIso).2 oldest = none := by
  rw [saveToHistory_of_avail hav]
  dsimp only
  have hidx' : indexList (storeSet st (historyKey key)
      (Payload.ok (SVal.hist ⟨snap, nowIso, key⟩))) = l' ++ [oldest] := by
    rw [← hidx]
    exact indexList_eq _ _ rfl
      (lookup_set_ne _ _ _ _ (historyKey_ne_index key).symm)
  have hav' : (storeSet st (historyKey key)
      (Payload.ok (SVal.hist ⟨snap, nowIso, key⟩))).avail = true := hav
  simp only [updateHistoryIndex]
  rw [hidx', if_neg hkey]
  have hlen91 : (key :: (l' ++ [oldest])).length = 91 := by
    simp [hlen]
  rw [if_pos (by rw [hlen91]; exact (by norm_num))]
  have htake : (key :: (l' ++ [oldest])).take 90 = key :: l' := by
    have : (90 : Nat) = l'.length + 1 := by rw [hlen]
    rw [this, List.take_succ_cons, List.take_left]
  have hdrop : (key :: (l' ++ [oldest])).drop 90 = [oldest] := by
    have : (90 : Nat) = l'.length + 1 := by rw [hlen]
    rw [this, List.drop_succ_cons, List.drop_left]
  rw [htake, hdrop]
  have hkne : key ≠ oldest := by
    intro hk
    exact hkey (by rw [hk]; simp)
  simp only [List.foldl_cons, List.foldl_nil]
  rw [removeItem_of_avail hav']
  dsimp only
  have havE : (storeErase (storeSet st (historyKey key)
      (Payload.ok (SVal.hist ⟨snap, nowIso, key⟩)))
      (historyKey oldest)).avail = true := hav
  refine ⟨indexList_setIndex _ _ havE, ?_, ?_⟩
  · rw [indexList_setIndex _ _ havE]
    simp only [List.mem_cons, not_or]
    exact ⟨fun h => hkne h.symm, hold⟩
  · unfold loadFromHistory getItem
    rw [lookup_setItem_ne _ _ _ _ (historyKey_ne_index oldest),
      lookup_erase_self]
    by_cases hx : ((setItem (storeErase (storeSet st (historyKey key)
        (Payload.ok (SVal.hist ⟨snap, nowIso, key⟩))) (historyKey oldest))
        HISTORY_INDEX_KEY (SVal.strList (key :: l'))).2).avail = false <;>
      simp [hx]

/-- C3: (a) across any sequence of `saveToHistory` calls the history index
never exceeds 90 entries; (b) saving a 91st distinct date evicts the oldest
indexed date: the new index is the new key followed by the first 89 old
entries, the oldest date is gone from the index, and its snapshot record is
deleted, so `loadFromHistory` of it returns nothing. -/
theorem c3_history_cap :
    (∀ (saves : List (Snapshot × String × String)) (st : Store),
      (indexList st).length ≤ 90 →
      (indexList (saves.foldl
        (fun s a => (saveToHistory s a.1 a.2.1 a.2.2).2) st)).length ≤ 90) ∧
    (∀ (st : Store) (snap : Snapshot) (key nowIso oldest : String)
      (l' : List String), st.avail = true →
      indexList st = l' ++ [oldest] → l'.length = 89 →
      key ∉ l' ++ [oldest] → oldest ∉ l' →
      indexList (saveToHistory st snap key nowIso).2 = key :: l' ∧
      oldest ∉ indexList (saveToHistory st snap key nowIso).2 ∧
      loadFromHistory (saveToHistory st snap key nowIso).2 oldest = none) :=
  ⟨fun saves st h => indexLen_fold saves st h,
   fun st snap key nowIso oldest l' hav hidx hlen hkey hold =>
     history_eviction st snap key nowIso oldest l' hav hidx hlen hkey hold⟩

/-- C3, witness: the cap bound on a concrete one-save sequence, and the
eviction of "old" when the 91st distinct date "new" is saved. -/
theorem c3_history_cap_witness :
    (indexList ([(snap0, "2024-01-01", "T")].foldl
      (fun s a => (saveToHistory s a.1 a.2.1 a.2.2).2) emptyStore)).length
      ≤ 90 ∧
    (indexList (saveToHistory c3Store snap0 "new" "T").2 = "new" :: c3Newer ∧
     "old" ∉ indexList (saveToHistory c3Store snap0 "new" "T").2 ∧
     loadFromHistory (saveToHistory c3Store snap0 "new" "T").2 "old" = none) :=
  ⟨c3_history_cap.1 [(snap0, "2024-01-01", "T")] emptyStore (by decide),
   c3_history_cap.2 c3Store snap0 "new" "T" "old" c3Newer rfl (by decide)
     (by decide) (by decide) (by decide)⟩

/-- C6: `addTool` rejects an empty or all-whitespace name, rejects quantity
0 and quantity 1000, and succeeds at quantity 999 for a valid name; every
rejection carries at least one human-readable message and leaves the
inventory unchanged. -/
theorem c6_addTool_validation (cat : String) (inv : Inventory) :
    (∀ q, (addTool "" cat q inv).1.success = false ∧
      (addTool "" cat q inv).1.errors ≠ [] ∧ (addTool "" cat q inv).2 = inv) ∧
    (∀ name q, jsTrim name = "" →
      (addTool name cat q inv).1.success = false ∧
      (addTool name cat q inv).1.errors ≠ [] ∧
      (addTool name cat q inv).2 = inv) ∧
    (∀ name, (addTool name cat (some 0) inv).1.success = false ∧
      (addTool name cat (some 0) inv).1.errors ≠ [] ∧
      (addTool name cat (some 0) inv).2 = inv) ∧
    (∀ name, (addTool name cat (some 1000) inv).1.success = false ∧
      (addTool name cat (some 1000) inv).1.errors ≠ [] ∧
      (addTool name cat (some 1000) inv).2 = inv) ∧
    (∀ name, jsTrim name ≠ "" → name.length ≤ MAX_TOOL_NAME_LENGTH →
      (addTool name cat (some 999) inv).1.success = true) := by
  have hqty0 : ∀ name, (validateTool name (some 0)).errors ≠ [] ∧
      (validateTool name (some 0)).valid = false := by
    intro name
    unfold validateTool
    by_cases h1 : name = "" ∨ (jsTrim name).length < MIN_TOOL_NAME_LENGTH <;>
      by_cases h2 : MAX_TOOL_NAME_LENGTH < name.length <;>
      simp [h1, h2, MIN_QUANTITY]
  have hqty1000 : ∀ name, (validateTool name (some 1000)).errors ≠ [] ∧
      (validateTool name (some 1000)).valid = false := by
    intro name
    unfold validateTool
    by_cases h1 : name = "" ∨ (jsTrim name).length < MIN_TOOL_NAME_LENGTH <;>
      by_cases h2 : MAX_TOOL_NAME_LENGTH < name.length <;>
      simp [h1, h2, MIN_QUANTITY, MAX_QUANTITY]
  have hname : ∀ name q, (name = "" ∨ (jsTrim name).length <
      MIN_TOOL_NAME_LENGTH) → (validateTool name q).errors ≠ [] ∧
      (validateTool name q).valid = false := by
    intro name q h1
    unfold validateTool
    simp [h1]
  refine ⟨?_, ?_, ?_, ?_, ?_⟩
  · intro q
    have h := hname "" q (Or.inl rfl)
    unfold addTool
    rw [if_pos h.2]
    exact ⟨rfl, h.1, rfl⟩
  · intro name q htrim
    have h := hname name q (Or.inr (by rw [htrim]; decide))
    unfold addTool
    rw [if_pos h.2]
    exact ⟨rfl, h.1, rfl⟩
  · intro name
    have h := hqty0 name
    unfold addTool
    rw [if_pos h.2]
    exact ⟨rfl, h.1, rfl⟩
  · intro name
    have h := hqty1000 name
    unfold addTool
    rw [if_pos h.2]
    exact ⟨rfl, h.1, rfl⟩
  · intro name htrim hlen
    have hval : (validateTool name (some 999)).valid = true := by
      unfold validateTool
      have h1 : ¬(name = "" ∨ (jsTrim name).length < MIN_TOOL_NAME_LENGTH) := by
        rintro (rfl | h2)
        · exact htrim rfl
        · unfold MIN_TOOL_NAME_LENGTH at h2
          have hdata : (jsTrim name).data.length = 0 := by
            have hl : (jsTrim name).length = 0 := by omega
            exact hl
          exact htrim (String.ext (List.length_eq_zero.mp hdata))
      have h2 : ¬(MAX_TOOL_NAME_LENGTH < name.length) := by omega
      simp [h1, h2, MIN_QUANTITY, MAX_QUANTITY]
    unfold addTool
    rw [if_neg (by rw [hval]; decide)]

/-- C6, witness: the five behaviours at concrete inputs over the default
inventory. -/
theorem c6_addTool_validation_witness :
    ((addTool "" "hammers" (some 5) DEFAULT_TOOL_INVENTORY).1.success = false ∧
     (addTool "" "hammers" (some 5) DEFAULT_TOOL_INVENTORY).1.errors ≠ [] ∧
     (addTool "" "hammers" (some 5) DEFAULT_TOOL_INVENTORY).2 =
       DEFAULT_TOOL_INVENTORY) ∧
    ((addTool "   " "hammers" (some 5) DEFAULT_TOOL_INVENTORY).1.success =
       false ∧
     (addTool "   " "hammers" (some 5) DEFAULT_TOOL_INVENTORY).1.errors ≠ [] ∧
     (addTool "   " "hammers" (some 5) DEFAULT_TOOL_INVENTORY).2 =
       DEFAULT_TOOL_INVENTORY) ∧
    ((addTool "Mallet" "hammers" (some 0) DEFAULT_TOOL_INVENTORY).1.success =
       false ∧
     (addTool "Mallet" "hammers" (some 0) DEFAULT_TOOL_INVENTORY).1.errors ≠
       [] ∧
     (addTool "Mallet" "hammers" (some 0) DEFAULT_TOOL_INVENTORY).2 =
       DEFAULT_TOOL_INVENTORY) ∧
    ((addTool "Mallet" "hammers" (some 1000)
        DEFAULT_TOOL_INVENTORY).1.success = false ∧
     (addTool "Mallet" "hammers" (some 1000) DEFAULT_TOOL_INVENTORY).1.errors
       ≠ [] ∧
     (addTool "Mallet" "hammers" (some 1000) DEFAULT_TOOL_INVENTORY).2 =
       DEFAULT_TOOL_INVENTORY) ∧
    (addTool "Mallet" "hammers" (some 999)
      DEFAULT_TOOL_INVENTORY).1.success = true :=
  ⟨(c6_addTool_validation "hammers" DEFAULT_TOOL_INVENTORY).1 (some 5),
   (c6_addTool_validation "hammers" DEFAULT_TOOL_INVENTORY).2.1 "   "
     (some 5) (by decide),
   (c6_addTool_validation "hammers" DEFAULT_TOOL_INVENTORY).2.2.1 "Mallet",
   (c6_addTool_validation "hammers" DEFAULT_TOOL_INVENTORY).2.2.2.1 "Mallet",
   (c6_addTool_validation "hammers" DEFAULT_TOOL_INVENTORY).2.2.2.2 "Mallet"
     (by decide) (by decide)⟩

/-- C8, counterexample: it is not true that mutating the value returned by
every read accessor leaves subsequent reads unchanged — for
`getDraggedElement`, mutating the returned element is observed by the next
read, because the internal reference itself was returned. -/
theorem c8_reads_alias_free_cex :
    ¬ (∀ (st : AppStateRef) (h : Heap) (a : Nat) (c : Cell),
        getDraggedElementH st h = some a →
        observeDragged st (heapWrite h a c) = observeDragged st h) := by
  intro hclaim
  have h1 := hclaim c8State c8Heap 2 (Cell.elemCell "mutated") rfl
  have h2 : observeDragged c8State
      (heapWrite c8Heap 2 (Cell.elemCell "mutated")) =
      some (Cell.elemCell "mutated") := rfl
  have h3 : observeDragged c8State c8Heap =
      some (Cell.elemCell "original") := rfl
  rw [h2, h3] at h1
  exact absurd h1 (by decide)

/-- C8, amended: `getInventory`, `getExpandedStacks` and the two structures
freshly cloned by `getState` are alias-free â mutating them changes no
subsequent read â but `getDraggedElement` (like the `draggedElement` field
spread by `getState`) returns the internal reference itself, and a mutation
through it is observed by subsequent reads. -/
theorem c8_reads_alias_amended (st : AppStateRef) (h : Heap) (c : Cell)
    (wfInv : st.invAddr < h.next) (wfStacks : st.stacksAddr < h.next) :
    observeInventory st
        (heapWrite (getInventoryH st h).2 (getInventoryH st h).1 c) =
      observeInventory st h ∧
    observeStacks st
        (heapWrite (getExpandedStacksH st h).2 (getExpandedStacksH st h).1 c) =
      observeStacks st h ∧
    observeInventory st
        (heapWrite (getStateH st h).2 (getStateH st h).1.invAddr c) =
      observeInventory st h ∧
    observeStacks st
        (heapWrite (getStateH st h).2 (getStateH st h).1.stacksAddr c) =
      observeStacks st h ∧
    (getStateH st h).1.draggedAddr = st.draggedAddr ∧
    getDraggedElementH st h = st.draggedAddr ∧
    (∀ a, st.draggedAddr = some a →
      observeDragged st (heapWrite h a c) = some c) := by
  have hI : st.invAddr ≠ h.next := Nat.ne_of_lt wfInv
  have hS : st.stacksAddr ≠ h.next := Nat.ne_of_lt wfStacks
  have hI2 : st.invAddr ≠ h.next + 1 :=
    Nat.ne_of_lt (Nat.lt_trans wfInv (Nat.lt_succ_self _))
  have hS2 : st.stacksAddr ≠ h.next + 1 :=
    Nat.ne_of_lt (Nat.lt_trans wfStacks (Nat.lt_succ_self _))
  refine ⟨?_, ?_, ?_, ?_, rfl, rfl, ?_⟩
  · simp [observeInventory, heapWrite, getInventoryH, heapAlloc, hI]
  · simp [observeStacks, heapWrite, getExpandedStacksH, heapAlloc, hS]
  · simp [observeInventory, heapWrite, getStateH, heapAlloc, hI, hI2]
  · simp [observeStacks, heapWrite, getStateH, heapAlloc, hS, hS2]
  · intro a ha
    simp [observeDragged, heapWrite, ha]

/-- C8, witness: the amended theorem at the concrete state and heap of the
counterexample (inventory at 0, stack set at 1, dragged element at 2). -/
theorem c8_reads_alias_amended_witness :
    observeInventory c8State
        (heapWrite (getInventoryH c8State c8Heap).2
          (getInventoryH c8State c8Heap).1 (Cell.elemCell "mutated")) =
      observeInventory c8State c8Heap ∧
    observeStacks c8State
        (heapWrite (getExpandedStacksH c8State c8Heap).2
          (getExpandedStacksH c8State c8Heap).1 (Cell.elemCell "mutated")) =
      observeStacks c8State c8Heap ∧
    observeInventory c8State
        (heapWrite (getStateH c8State c8Heap).2
          (getStateH c8State c8Heap).1.invAddr (Cell.elemCell "mutated")) =
      observeInventory c8State c8Heap ∧
    observeStacks c8State
        (heapWrite (getStateH c8State c8Heap).2
          (getStateH c8State c8Heap).1.stacksAddr (Cell.elemCell "mutated")) =
      observeStacks c8State c8Heap ∧
    (getStateH c8State c8Heap).1.draggedAddr = c8State.draggedAddr ∧
    getDraggedElementH c8State c8Heap = c8State.draggedAddr ∧
    (∀ a, c8State.draggedAddr = some a →
      observeDragged c8State (heapWrite c8Heap a (Cell.elemCell "mutated")) =
        some (Cell.elemCell "mutated")) :=
  c8_reads_alias_amended c8State c8Heap (Cell.elemCell "mutated")
    (by decide) (by decide)

/-- C9: a `setState` (and a `reset`) notifies every registered observer,
in registration order, synchronously before the call returns (the events
are part of the returned value), each observer seeing the new state; a
throwing observer's exception is caught and logged in its event rather
than propagated, so every observer registered after it still appears in
the pass. -/
theorem c9_setState_notifies_in_order (st : AppStateV) (u : StateUpdates) :
    ((setState st u).2).map (fun ev => ev.id) =
      st.listeners.map (fun l => l.id) ∧
    (∀ ev ∈ (setState st u).2, ev.observed = (setState st u).1.snap) ∧
    ((resetState st).2).map (fun ev => ev.id) =
      st.listeners.map (fun l => l.id) := by
  refine ⟨?_, ?_, ?_⟩
  · simp [setState, notifyListeners, List.map_map, Function.comp]
  · intro ev hev
    simp only [setState, notifyListeners, List.mem_map] at hev
    rcases hev with ⟨l, _, hl⟩
    rw [← hl]
    rfl
  · simp [resetState, notifyListeners, List.map_map, Function.comp]

/-- C9, witness: with a throwing first listener, both listeners are still
invoked, in order, and each sees the updated state. -/
theorem c9_setState_notifies_in_order_witness :
    ((setState c9State { lastUpdateTime := some (some "10:00") }).2).map
      (fun ev => ev.id) = [1, 2] ∧
    (∀ ev ∈ (setState c9State { lastUpdateTime := some (some "10:00") }).2,
      ev.observed =
        (setState c9State { lastUpdateTime := some (some "10:00") }).1.snap) := by
  have h := c9_setState_notifies_in_order c9State
    { lastUpdateTime := some (some "10:00") }
  exact ⟨h.1.trans rfl, h.2.1⟩

end HandTool
